import Mathlib

/-!
Verification of the durable persistence and recovery subsystem of the
BLACKMD repository: the multi-location credential backup manager
(`createBackup`, `cleanupOldBackups`, `restoreBackup`), the credential
transport codec (`decompressCredsData`, `compressCredsData`), and the
durable key-value user-data store (`saveAllUserData`, `loadAllUserData`,
`_normalizeJid`, `initializeUserProfile`, `getUserProfile`).

The JavaScript source is shallowly embedded: JSON values are modelled by
an inductive `Json` type (a file's content is modelled as either a parsed
JSON value or unparsable junk, reflecting that `JSON.parse ∘ JSON.stringify`
is the identity on JSON-serializable values), the filesystem is an
association list from path to content, JavaScript `Map`s are association
lists with replace-or-append insertion, and JavaScript object identity
(needed because profile records are shared by reference between the
original and the normalized key) is modelled by a heap of records indexed
by natural-number references.  External primitives (the SHA-256 digest,
`JSON.parse` applied to arbitrary strings, zip/gzip decompression) are
taken as explicit function parameters or as per-call fields of the
modelled input, since their byte-level behaviour is outside the program.
I/O failures are injected through explicit environment flags mirroring
each `try`/`catch` site of the source.
-/

/-- JavaScript JSON values (numbers restricted to integers, which covers
every value these functions construct or inspect). -/
inductive Json where
  | null : Json
  | bool (b : Bool) : Json
  | num (n : Int) : Json
  | str (s : String) : Json
  | arr (elems : List Json) : Json
  | obj (fields : List (String × Json)) : Json

/-- First-match field lookup in a JSON object's field list (objects coming
from `JSON.parse` have no duplicate keys). -/
def lookupField : List (String × Json) → String → Option Json
  | [], _ => none
  | (k', v) :: rest, k => if k' = k then some v else lookupField rest k

/-- JavaScript property access `j[k]`: `undefined` (= `none`) unless `j` is
an object with field `k`. -/
def jsGet : Json → String → Option Json
  | .obj fields, k => lookupField fields k
  | _, _ => none

/-- JavaScript truthiness of a possibly-`undefined` value. -/
def jsTruthy : Option Json → Bool
  | none => false
  | some .null => false
  | some (.bool b) => b
  | some (.num n) => n != 0
  | some (.str s) => s != ""
  | some (.arr _) => true
  | some (.obj _) => true

/-- JavaScript test `typeof v === "object" && v` — true for objects and arrays, false for
`null` and primitives (used by the profile-validation guards). -/
def isObjLike : Json → Bool
  | .obj _ => true
  | .arr _ => true
  | _ => false

/-- JavaScript strict equality `s === v` between a known string and an
arbitrary JSON value (comparison across types is `false`). -/
def strictEqStr (s : String) (v : Json) : Bool :=
  match v with
  | .str t => s == t
  | _ => false

/-- JSON string escaping as performed by `JSON.stringify`. -/
def jsonEscapeChar (c : Char) : String :=
  if c = '"' then "\\\""
  else if c = '\\' then "\\\\"
  else if c = '\n' then "\\n"
  else if c = '\r' then "\\r"
  else if c = '\t' then "\\t"
  else if c.toNat < 32 then
    "\\u00" ++ String.mk [Nat.digitChar (c.toNat / 16), Nat.digitChar (c.toNat % 16)]
  else String.singleton c

/-- Escape every character of a string for JSON output. -/
def jsonEscape (s : String) : String :=
  s.foldl (fun acc c => acc ++ jsonEscapeChar c) ""

mutual

/-- Model of `JSON.stringify` (compact form, insertion key order), total on `Json`. -/
def stringify : Json → String
  | .null => "null"
  | .bool true => "true"
  | .bool false => "false"
  | .num n => toString n
  | .str s => "\"" ++ jsonEscape s ++ "\""
  | .arr xs => "[" ++ stringifyArr xs ++ "]"
  | .obj fs => "\x7b" ++ stringifyObj fs ++ "\x7d"

/-- Comma-separated stringification of array elements. -/
def stringifyArr : List Json → String
  | [] => ""
  | [x] => stringify x
  | x :: y :: xs => stringify x ++ "," ++ stringifyArr (y :: xs)

/-- Comma-separated stringification of object fields. -/
def stringifyObj : List (String × Json) → String
  | [] => ""
  | [(k, v)] => "\"" ++ jsonEscape k ++ "\":" ++ stringify v
  | (k, v) :: f :: fs =>
      "\"" ++ jsonEscape k ++ "\":" ++ stringify v ++ "," ++ stringifyObj (f :: fs)

end

/-- JavaScript `Object.entries(v)`: fields of an object, index/value pairs of an
array, index/character pairs of a string, `[]` for other primitives. -/
def jsEntries : Json → List (String × Json)
  | .obj fs => fs
  | .arr xs => xs.enum.map (fun p => (toString p.1, p.2))
  | .str s => s.toList.enum.map (fun p => (toString p.1, Json.str (String.singleton p.2)))
  | _ => []

/-- JavaScript `Map.get` on the association-list model of a `Map`. -/
def mget {α : Type} : List (String × α) → String → Option α
  | [], _ => none
  | (k', v) :: rest, k => if k' = k then some v else mget rest k

/-- JavaScript `Map.set`: replace in place if the key exists, else append
(preserves the `Map`'s insertion order). -/
def mset {α : Type} : List (String × α) → String → α → List (String × α)
  | [], k, v => [(k, v)]
  | (k', v') :: rest, k, v =>
      if k' = k then (k, v) :: rest else (k', v') :: mset rest k v

/-- Delete a path from the filesystem model (`fs.unlink` / the removal half
of `fs.rename`). -/
def fremove {α : Type} (m : List (String × α)) (k : String) : List (String × α) :=
  m.filter (fun kv => kv.1 ≠ k)

/-- Boolean prefix test on character lists. -/
def listPrefix : List Char → List Char → Bool
  | [], _ => true
  | _ :: _, [] => false
  | a :: as, b :: bs => a == b && listPrefix as bs

/-- Boolean substring search on character lists. -/
def hasSub (pat : List Char) : List Char → Bool
  | [] => listPrefix pat []
  | c :: t => listPrefix pat (c :: t) || hasSub pat t

/-- JavaScript `s.includes(pat)` (substring containment). -/
def jsIncludes (s pat : String) : Bool :=
  hasSub pat.toList s.toList

/-- JavaScript emptiness test (trim then compare with the empty string):
every character is whitespace. -/
def jsTrimEmpty (s : String) : Bool :=
  s.toList.all (fun c => c.isWhitespace)

/-- The function `_normalizeJid` from `src/utils/permissions.js`: group JIDs (containing
`@g.us`) and already-normalized user JIDs (containing `@s.whatsapp.net`)
pass through unchanged; anything else keeps the part before the first `@`
and gets the canonical user domain appended.  The `!jid` guard returns
the empty string for an empty input. -/
def _normalizeJid (jid : String) : String :=
  if jid = "" then ""
  else if jsIncludes jid "@g.us" then jid
  else if jsIncludes jid "@s.whatsapp.net" then jid
  else String.mk (jid.toList.takeWhile (fun c => c ≠ '@')) ++ "@s.whatsapp.net"

/-- Content of a file on disk: either text that parses as JSON (in which
case `JSON.parse` yields exactly the stored value) or unparsable junk. -/
inductive FileData where
  | text (j : Json) : FileData
  | junk (raw : String) : FileData

/-- One backup location (`backupManager.js`): whether `fs.access` on the
directory succeeds, and the directory's files (name, content).  The
latest-pointer lives in `files` under the name `latest_creds.json`. -/
structure BackupDir where
  accessible : Bool
  files : List (String × FileData)

/-- Filename filter of `cleanupOldBackups` / `restoreBackup`:
`file.startsWith("creds_backup_") && file.endsWith(".json")`. -/
def isBackupName (name : String) : Bool :=
  listPrefix "creds_backup_".toList name.toList
    && listPrefix ".json".toList.reverse name.toList.reverse

/-- Lexicographic comparison of character lists by code point (the order
JavaScript's default string sort uses; on the ASCII filenames involved,
UTF-16 code-unit order and code-point order agree). -/
def strLeChars : List Char → List Char → Bool
  | [], _ => true
  | _ :: _, [] => false
  | a :: as, b :: bs =>
      if a.toNat < b.toNat then true
      else if b.toNat < a.toNat then false
      else strLeChars as bs

/-- Comparison `a ≤ b` in JavaScript string order. -/
def strLe (a b : String) : Bool :=
  strLeChars a.toList b.toList

/-- JavaScript `Array.prototype.sort()` on strings: stable lexicographic
ascending sort (modelled by insertion sort over `strLe`). -/
def sortStr (l : List String) : List String :=
  List.insertionSort (fun a b => strLe a b = true) l

/-- Outcome of `restoreBackup`'s handling of one location's latest-pointer
file `latest_creds.json`:
* `ret v` — the inner `return parsed.creds` executed (`v = none` models
  returning the `undefined` that `parsed.creds` evaluates to when absent);
* `mismatch` — the recomputed digest differed from `meta.checksum`, so the
  `continue` statement executed (which continues the outer loop over the
  backup directories);
* `fallthrough` — reading or parsing the file threw (file missing, junk
  content, or `JSON.stringify(undefined)` feeding `hash.update`), so
  control falls through to the timestamped snapshots of the same
  location. -/
inductive LatestRes where
  | ret (v : Option Json) : LatestRes
  | mismatch : LatestRes
  | fallthrough : LatestRes

/-- The latest-pointer phase of `restoreBackup` for one location, with the
digest function (`calculateChecksum`, SHA-256 hex) passed in as `hash`. -/
def latestOutcome (hash : String → String) (files : List (String × FileData)) : LatestRes :=
  match mget files "latest_creds.json" with
  | none => .fallthrough
  | some (.junk _) => .fallthrough
  | some (.text j) =>
    let meta := jsGet j "meta"
    let ck := match meta with
      | some m => jsGet m "checksum"
      | none => none
    if jsTruthy meta && jsTruthy ck then
      match jsGet j "creds", ck with
      | none, _ => .fallthrough
      | some c, some ckv =>
          if strictEqStr (hash (stringify c)) ckv then .ret (some c) else .mismatch
      | some _, none => .fallthrough
    else
      .ret (jsGet j "creds")

/-- JavaScript `parsed.creds || parsed` — the payload a timestamped snapshot yields
(old-format files without a truthy `creds` field return the whole parsed
object). -/
def payloadOf (j : Json) : Option Json :=
  if jsTruthy (jsGet j "creds") then jsGet j "creds" else some j

/-- The names `restoreBackup` iterates in the timestamped fallback:
snapshot files sorted ascending by name and reversed (newest first in
lexicographic filename order). -/
def backupCandidates (files : List (String × FileData)) : List String :=
  (sortStr ((files.map Prod.fst).filter isBackupName)).reverse

/-- Try each timestamped snapshot in order, returning the payload of the
first file that parses; `none` when every candidate is unparsable (or
there are none), in which case the outer directory loop continues. -/
def snapshotScan (files : List (String × FileData)) : List String → Option (Option Json)
  | [] => none
  | n :: ns =>
    match mget files n with
    | some (.text j) => some (payloadOf j)
    | _ => snapshotScan files ns

/-- The function `restoreBackup` from `backupManager.js`: walk the configured locations
in priority order; skip inaccessible directories; per location, first try
the latest-pointer (digest-verified when metadata carries a checksum —
a mismatch `continue`s to the NEXT location), and only when the
latest-pointer is missing or unparsable fall back to that location's
timestamped snapshots, newest first by filename, accepted without digest
verification; `none` when nothing anywhere succeeds. -/
def restoreBackup (hash : String → String) : List BackupDir → Option Json
  | [] => none
  | d :: rest =>
    if !d.accessible then restoreBackup hash rest
    else
      match latestOutcome hash d.files with
      | .ret v => v
      | .mismatch => restoreBackup hash rest
      | .fallthrough =>
        match snapshotScan d.files (backupCandidates d.files) with
        | some v => v
        | none => restoreBackup hash rest

/-- The function `cleanupOldBackups` for one directory: keep at most
`MAX_BACKUPS_PER_DIR = 10` snapshot files, deleting the surplus ones that
come first in ascending filename-sort order (`backupFiles.sort()` then
`slice(0, length - MAX)`); files not matching the snapshot name pattern —
the latest-pointer in particular — are never touched. -/
def cleanupOldBackups (files : List (String × FileData)) : List (String × FileData) :=
  let backupFiles := (files.map Prod.fst).filter isBackupName
  if backupFiles.length > 10 then
    let filesToRemove := (sortStr backupFiles).take (backupFiles.length - 10)
    files.filter (fun kv => !(filesToRemove.contains kv.1))
  else files

/-- One backup location as `createBackup` sees it: whether `fs.mkdir` and
`fs.writeFile` succeed there, plus its current files. -/
structure BDir where
  mkdirOk : Bool
  writeOk : Bool
  files : List (String × FileData)

/-- The backup-file content `createBackup` writes everywhere:
`{ creds, meta: { timestamp, checksum, session, version } }`. -/
def backupContent (hash : String → String) (nowMs : Nat) (session : String)
    (creds : Json) : FileData :=
  .text (.obj [("creds", creds),
               ("meta", .obj [("timestamp", .num (Int.ofNat nowMs)),
                              ("checksum", .str (hash (stringify creds))),
                              ("session", .str session),
                              ("version", .str "1.0")])])

/-- Per-location body of `createBackup`'s write loop (its own
`try`/`catch`: a failing location is logged and skipped) followed by the
per-location retention pruning of `cleanupOldBackups`. -/
def backupDirStep (hash : String → String) (nowMs : Nat) (session : String)
    (creds : Json) (d : BDir) : BDir :=
  let written :=
    if d.writeOk then
      mset (mset d.files ("creds_backup_" ++ toString nowMs ++ ".json")
              (backupContent hash nowMs session creds))
           "latest_creds.json" (backupContent hash nowMs session creds)
    else d.files
  { d with files := cleanupOldBackups written }

/-- The function `createBackup` from `backupManager.js`: reject a falsy payload with
`false`; ensure every location directory exists (a `mkdir` failure throws
to the outer catch, returning `false`); then write the timestamped
snapshot and overwrite the latest-pointer at every location independently
(per-location failures tolerated), prune old snapshots, and return
`true`. -/
def createBackup (hash : String → String) (nowMs : Nat) (session : String)
    (creds : Option Json) (dirs : List BDir) : Bool × List BDir :=
  if !(jsTruthy creds) then (false, dirs)
  else if !(dirs.all (fun d => d.mkdirOk)) then (false, dirs)
  else
    match creds with
    | none => (false, dirs)
    | some c => (true, dirs.map (backupDirStep hash nowMs session c))

/-- The base64-decoded buffer `decompressCredsData` probes, described by
what each decoding primitive yields on it: its UTF-8 reading, the entry
list `AdmZip` extracts (`none` when the constructor throws on a non-zip
buffer), and the `zlib.gunzip` output (`none` when not gzip data). -/
structure CredsBuffer where
  asUtf8 : String
  zipEntries : Option (List (String × String))
  gunzipped : Option String

/-- Scan zip entries for the canonical name `creds.json`. -/
def entryFind : List (String × String) → Option String
  | [] => none
  | (name, data) :: rest => if name = "creds.json" then some data else entryFind rest

/-- The zip phase of `decompressCredsData`: the first entry named
`creds.json`, if the buffer is a zip archive containing one. -/
def zipLookup (buf : CredsBuffer) : Option String :=
  match buf.zipEntries with
  | none => none
  | some entries => entryFind entries

/-- The function `compressCredsData` from the platform helper: wrap the creds file's
content in a single-entry zip archive whose entry carries the file's base
name `creds.json` (`none` when the creds file does not exist).  The
archive is modelled by its entry list; base64ing the zip bytes is the
identity at this level of abstraction. -/
def compressCredsData (credsFile : Option String) : Option (List (String × String)) :=
  match credsFile with
  | none => none
  | some content => some [("creds.json", content)]

/-- The function `decompressCredsData` (3-strategy version of the platform helper),
with `JSON.parse` passed in as `parse` (`none` = throws).  Strategy 1:
the UTF-8 reading itself parses → return it as-is.  Strategy 2: a zip
archive with a `creds.json` entry → return that entry's text.  Strategy
3: gunzip, parse, and if the parsed object has a truthy `creds` or
`creds.json` field unwrap it (re-stringifying a `creds` object),
otherwise return the whole gunzipped string; `none` when every strategy
fails.  Values are returned as `Json` (`Json.str` for the string
returns) because strategy 3 can return a non-string field value. -/
def decompressCredsData (parse : String → Option Json) (buf : CredsBuffer) : Option Json :=
  match parse buf.asUtf8 with
  | some _ => some (.str buf.asUtf8)
  | none =>
    match zipLookup buf with
    | some data => some (.str data)
    | none =>
      match buf.gunzipped with
      | none => none
      | some s =>
        match parse s with
        | none => none
        | some j =>
          if jsTruthy (jsGet j "creds") || jsTruthy (jsGet j "creds.json") then
            if jsTruthy (jsGet j "creds") then
              (jsGet j "creds").map (fun c => Json.str (stringify c))
            else jsGet j "creds.json"
          else some (.str s)

/-- The in-memory collections owned by the user-data store
(`src/utils/permissions.js`).  Profile records are JavaScript objects
shared by reference between several keys, so `profileRefs` maps keys to
references into `heap`; the auxiliary collections are plain value maps
and the lottery participants a JavaScript `Set`. -/
structure Store where
  profileRefs : List (String × Nat)
  heap : List Json
  userGames : List (String × Json)
  marriageData : List (String × Json)
  bankAccounts : List (String × Json)
  userJobs : List (String × Json)
  petData : List (String × Json)
  userAfk : List (String × Json)
  streakData : List (String × Json)
  checkinData : List (String × Json)
  lotteryParticipants : List Json

/-- The store with every collection empty. -/
def emptyStore : Store :=
  { profileRefs := [], heap := [], userGames := [], marriageData := [],
    bankAccounts := [], userJobs := [], petData := [], userAfk := [],
    streakData := [], checkinData := [], lotteryParticipants := [] }

/-- The profile record a key denotes, with the reference resolved. -/
def resolveProfile (s : Store) (k : String) : Option Json :=
  match mget s.profileRefs k with
  | none => none
  | some r => s.heap[r]?

/-- JavaScript `a || b` with a possibly-`undefined` left operand. -/
def jsOr (v : Option Json) (d : Json) : Json :=
  if jsTruthy v then v.getD d else d

/-- JavaScript `typeof v === "number" ? v : d` for a field access. -/
def numOr (v : Option Json) (d : Int) : Json :=
  match v with
  | some (.num n) => .num n
  | _ => .num d

/-- JavaScript `Array.isArray(v) ? v : []` for a field access. -/
def arrOr (v : Option Json) : Json :=
  match v with
  | some (.arr xs) => .arr xs
  | _ => .arr []

/-- The validated profile `saveAllUserData` persists for an object-shaped
in-memory profile: every required field present, with type-safe defaults
substituted for missing or malformed values. -/
def validateProfile (now : String) (p : Json) : Json :=
  .obj [("name", jsOr (jsGet p "name") (.str "User")),
        ("age", jsOr (jsGet p "age") (.num 0)),
        ("xp", numOr (jsGet p "xp") 0),
        ("level", numOr (jsGet p "level") 1),
        ("coins", numOr (jsGet p "coins") 0),
        ("bio", jsOr (jsGet p "bio") (.str "")),
        ("language", jsOr (jsGet p "language") (.str "en")),
        ("registeredAt", jsOr (jsGet p "registeredAt") (.str now)),
        ("lastDaily", jsOr (jsGet p "lastDaily") .null),
        ("inventory", arrOr (jsGet p "inventory")),
        ("achievements", arrOr (jsGet p "achievements")),
        ("customTitle", jsOr (jsGet p "customTitle") (.str "")),
        ("warnings", numOr (jsGet p "warnings") 0)]

/-- The validation loop of `saveAllUserData`: entries whose record is not
object-shaped are dropped (and counted as invalid), the rest are saved
under their original key with defaults substituted. -/
def validateProfiles (now : String) (s : Store) : List (String × Json) :=
  s.profileRefs.filterMap (fun kv =>
    match s.heap[kv.2]? with
    | some p => if isObjLike p then some (kv.1, validateProfile now p) else none
    | none => none)

/-- The full `userData` object `saveAllUserData` serializes. -/
def userDataJson (now : String) (s : Store) : Json :=
  .obj [("profiles", .obj (validateProfiles now s)),
        ("games", .obj s.userGames),
        ("marriages", .obj s.marriageData),
        ("bank", .obj s.bankAccounts),
        ("jobs", .obj s.userJobs),
        ("pets", .obj s.petData),
        ("afk", .obj s.userAfk),
        ("streaks", .obj s.streakData),
        ("checkins", .obj s.checkinData),
        ("lottery", .arr s.lotteryParticipants),
        ("_meta", .obj [("version", .num 1),
                        ("savedAt", .str now),
                        ("profileCount", .num (Int.ofNat (validateProfiles now s).length)),
                        ("invalidProfileCount",
                         .num (Int.ofNat (s.profileRefs.length - (validateProfiles now s).length)))])]

/-- The best-effort backup step of `saveAllUserData`: when the target file
exists and the copy succeeds, duplicate its content at the `.bak`
path (failure here is non-fatal and changes nothing). -/
def copyBakStep (copyOk : Bool) (fs : List (String × FileData))
    (filePath backupPath : String) : List (String × FileData) :=
  match mget fs filePath with
  | some c => if copyOk then mset fs backupPath c else fs
  | none => fs

/-- Rename `fs.rename src dst` on the filesystem model. -/
def frename (fs : List (String × FileData)) (src dst : String) : List (String × FileData) :=
  match mget fs src with
  | none => fs
  | some c => mset (fremove fs src) dst c

/-- Which filesystem calls of `saveAllUserData` succeed (each flag guards
one `try`/`catch` site of the source, in order: `fs.mkdir`, the
best-effort `fs.copyFile` backup, `JSON.stringify`, the temp-file
`fs.writeFile`, the defensive re-read `fs.readFile`+`JSON.parse`, and
`fs.rename`). -/
structure SaveEnv where
  mkdirOk : Bool
  copyBakOk : Bool
  stringifyOk : Bool
  writeTempOk : Bool
  readTempOk : Bool
  renameOk : Bool

/-- The structured result object `saveAllUserData` resolves with. -/
structure SaveResult where
  success : Bool
  message : String
  path : Option String

/-- The function `saveAllUserData` from `src/utils/permissions.js`: ensure the data
directory, best-effort backup of the existing target to `.bak`, validate
every profile, serialize the full collection set, write it to a
uniquely-named temporary file, re-read it as a defensive validation, and
atomically rename the temporary file onto the target; any failing step
returns a structured failure without touching the target file. -/
def saveAllUserData (env : SaveEnv) (now : String) (nowMs : Nat) (s : Store)
    (fs : List (String × FileData)) (filename : String) :
    SaveResult × List (String × FileData) :=
  if !env.mkdirOk then
    ({ success := false, message := "Failed to create data directory", path := none }, fs)
  else
    let filePath := "data/" ++ filename
    let backupPath := filePath ++ ".bak"
    let tempFilePath := filePath ++ ".temp." ++ toString nowMs
    let fs1 := copyBakStep env.copyBakOk fs filePath backupPath
    let userData := userDataJson now s
    if !env.stringifyOk then
      ({ success := false, message := "Failed to serialize user data", path := none }, fs1)
    else if !env.writeTempOk then
      ({ success := false, message := "Failed to write user data file", path := none }, fs1)
    else
      let fs2 := mset fs1 tempFilePath (.text userData)
      if !env.readTempOk then
        ({ success := false, message := "Validation of saved data failed", path := none }, fs2)
      else if !env.renameOk then
        ({ success := false, message := "Failed to finalize user data file", path := none }, fs2)
      else
        ({ success := true, message := "User data saved successfully", path := some filePath },
         frename fs2 tempFilePath filePath)

/-- JavaScript `Set` SameValueZero equality restricted to the values
`JSON.parse` can produce: primitives compare by value, while two parsed
objects or arrays are always distinct references and never equal. -/
def jsSameValueZero (a b : Json) : Bool :=
  match a, b with
  | .null, .null => true
  | .bool x, .bool y => x == y
  | .num x, .num y => x == y
  | .str x, .str y => x == y
  | _, _ => false

/-- JavaScript `Set.add` on the list model of a `Set`. -/
def setAdd (l : List Json) (x : Json) : List Json :=
  if l.any (fun y => jsSameValueZero y x) then l else l ++ [x]

/-- Guard `data.f && typeof data.f === "object"` followed by
`Object.entries(data.f)` (empty when the guard fails). -/
def fieldEntries (j : Json) (f : String) : List (String × Json) :=
  match jsGet j f with
  | some v => if isObjLike v then jsEntries v else []
  | none => []

/-- Guard `if (data.f)` followed by `Object.entries(data.f)` (empty when
the field is falsy; entries of a truthy primitive follow `Object.entries`
semantics). -/
def truthyEntries (j : Json) (f : String) : List (String × Json) :=
  match jsGet j f with
  | some v => if jsTruthy (some v) then jsEntries v else []
  | none => []

/-- The profile-repopulation loop of `loadAllUserData`: each object-shaped
entry is stored once in the heap and bound to its normalized key, and
additionally to its original key when the two differ; non-object entries
are skipped.  Returns the key map, the grown heap and the loaded count. -/
def loadProfilesGo : List (String × Json) → List (String × Nat) → List Json → Nat →
    List (String × Nat) × List Json × Nat
  | [], refs, heap, cnt => (refs, heap, cnt)
  | (k, v) :: rest, refs, heap, cnt =>
    if isObjLike v then
      let r := heap.length
      let nk := _normalizeJid k
      let refs1 := mset refs nk r
      let refs2 := if nk ≠ k then mset refs1 k r else refs1
      loadProfilesGo rest refs2 (heap ++ [v]) (cnt + 1)
    else loadProfilesGo rest refs heap cnt

/-- Repopulation of a value collection keeping only object-shaped entries
(the `games`/`marriages` loops of `loadAllUserData`). -/
def loadFiltered (entries : List (String × Json)) : List (String × Json) :=
  entries.foldl (fun m kv => if isObjLike kv.2 then mset m kv.1 kv.2 else m) []

/-- Repopulation of a value collection keeping every entry (the `bank`,
`jobs`, `pets`, `afk`, `streaks` and `checkins` loops — a parsed JSON
value is never `undefined`, so the `value !== undefined` guard always
passes). -/
def loadAllEntries (entries : List (String × Json)) : List (String × Json) :=
  entries.foldl (fun m kv => mset m kv.1 kv.2) []

/-- Full repopulation of the cleared store from the parsed data object
(the heap of the pre-clear store persists — `Map.clear` drops the keys,
not the records). -/
def repopulate (heap0 : List Json) (j : Json) : Store × Nat :=
  let loaded := loadProfilesGo (fieldEntries j "profiles") [] heap0 0
  ({ profileRefs := loaded.1,
     heap := loaded.2.1,
     userGames := loadFiltered (fieldEntries j "games"),
     marriageData := loadFiltered (fieldEntries j "marriages"),
     bankAccounts := loadAllEntries (fieldEntries j "bank"),
     userJobs := loadAllEntries (truthyEntries j "jobs"),
     petData := loadAllEntries (truthyEntries j "pets"),
     userAfk := loadAllEntries (truthyEntries j "afk"),
     streakData := loadAllEntries (truthyEntries j "streaks"),
     checkinData := loadAllEntries (truthyEntries j "checkins"),
     lotteryParticipants :=
       match jsGet j "lottery" with
       | some (.arr xs) => xs.foldl setAdd []
       | _ => [] },
   loaded.2.2)

/-- The pre-clear dump `loadAllUserData` writes to `.bak`
(`Object.fromEntries` over each live collection, references resolved). -/
def currentDataJson (s : Store) : Json :=
  .obj [("profiles", .obj (s.profileRefs.map (fun kv => (kv.1, (s.heap[kv.2]?).getD .null)))),
        ("games", .obj s.userGames),
        ("marriages", .obj s.marriageData),
        ("bank", .obj s.bankAccounts),
        ("jobs", .obj s.userJobs),
        ("pets", .obj s.petData),
        ("afk", .obj s.userAfk),
        ("streaks", .obj s.streakData),
        ("checkins", .obj s.checkinData),
        ("lottery", .arr s.lotteryParticipants)]

/-- JavaScript `Object.keys` applied to a `Map` instance.  A `Map`'s
entries are not own enumerable properties of the `Map` object, so the
result is always the empty array — `loadAllUserData`'s rollback guard
evaluates `Object.keys(backupData.profiles).length > 0` where
`backupData.profiles` is `new Map(userProfiles)`, a `Map`. -/
def jsObjectKeysOfMap (_m : List (String × Nat)) : List String := []

/-- Which failure modes strike a `loadAllUserData` run: the `fs.mkdir`
guard, and an exception thrown inside the repopulation phase (modelled as
striking after the profiles loop, leaving the other collections still
cleared). -/
structure LoadEnv where
  mkdirOk : Bool
  crashDuringRepop : Bool

/-- The structured result object `loadAllUserData` resolves with. -/
structure LoadResult where
  success : Bool
  message : String
  count : Option Nat

/-- The function `loadAllUserData` from `src/utils/permissions.js`: snapshot the live
collections, read and parse the source file (quarantining unparsable
content to a `.corrupted.<timestamp>` copy), dump the pre-clear state to
`.bak`, clear every collection and repopulate from the parsed data.  A
whitespace-only file is classified as a read error (no quarantine).  If
an exception strikes during repopulation, the catch handler's rollback is
guarded by `Object.keys(backupData.profiles).length > 0` — always false
for a `Map` — so the snapshot is never restored and the partially
repopulated state is returned. -/
def loadAllUserData (env : LoadEnv) (nowMs : Nat) (s : Store)
    (fs : List (String × FileData)) (filename : String) :
    LoadResult × Store × List (String × FileData) :=
  let filePath := "data/" ++ filename
  if !env.mkdirOk then
    ({ success := false, message := "Failed to create data directory", count := none }, s, fs)
  else
    match mget fs filePath with
    | none =>
      ({ success := false, message := "User data file not found", count := none }, s, fs)
    | some content =>
      let contentEmpty :=
        match content with
        | .junk raw => jsTrimEmpty raw
        | .text _ => false
      if contentEmpty then
        ({ success := false, message := "Failed to read user data file", count := none }, s, fs)
      else
        match content with
        | .junk raw =>
          ({ success := false, message := "Failed to parse user data", count := none }, s,
           mset fs (filePath ++ ".corrupted." ++ toString nowMs) (.junk raw))
        | .text j =>
          if !(isObjLike j) then
            ({ success := false, message := "Failed to parse user data", count := none }, s,
             mset fs (filePath ++ ".corrupted." ++ toString nowMs) (.text j))
          else
            let fs1 := mset fs (filePath ++ ".bak") (.text (currentDataJson s))
            if env.crashDuringRepop then
              let loaded := loadProfilesGo (fieldEntries j "profiles") [] s.heap 0
              let stoppedStore :=
                { emptyStore with profileRefs := loaded.1, heap := loaded.2.1 }
              if (jsObjectKeysOfMap s.profileRefs).length > 0 then
                ({ success := false,
                   message := "Error loading user data, restored from memory backup",
                   count := none }, s, fs1)
              else
                ({ success := false, message := "Error loading user data", count := none },
                 stoppedStore, fs1)
            else
              let loaded := repopulate s.heap j
              ({ success := true, message := "User data loaded successfully",
                 count := some loaded.2 }, loaded.1, fs1)

/-- JavaScript object spread `{...base, ...extra}`: keys of `base` in
order, overridden in place by `extra`, new keys appended. -/
def spreadFields (base extra : List (String × Json)) : List (String × Json) :=
  extra.foldl (fun acc kv => mset acc kv.1 kv.2) base

/-- The `defaultProfile` literal of `initializeUserProfile` (fields that
read `initialData` do so with `||` defaults; `registeredAt` is the
current ISO timestamp). -/
def defaultProfileFields (now : String) (initialData : List (String × Json)) :
    List (String × Json) :=
  [("name", jsOr (lookupField initialData "name") (.str "User")),
   ("age", jsOr (lookupField initialData "age") (.num 0)),
   ("xp", .num 0),
   ("level", .num 1),
   ("coins", .num 0),
   ("bio", .str ""),
   ("language", jsOr (lookupField initialData "language") (.str "en")),
   ("registeredAt", .str now),
   ("lastDaily", .null),
   ("inventory", .arr []),
   ("achievements", .arr []),
   ("customTitle", .str ""),
   ("warnings", .num 0)]

/-- The function `initializeUserProfile` from `src/utils/permissions.js`: reject a
falsy id; if a profile already exists under the original OR the
normalized id, return it unchanged (note: this path does not backfill
the other key); otherwise build the new record from the defaults spread
with `initialData`, store it once, and bind the normalized id — plus the
original id when the two differ — to that single record. -/
def initializeUserProfile (now : String) (s : Store) (userId : String)
    (initialData : List (String × Json)) : Option Nat × Store :=
  if userId = "" then (none, s)
  else
    let normalizedId := _normalizeJid userId
    match mget s.profileRefs userId with
    | some r => (some r, s)
    | none =>
      match mget s.profileRefs normalizedId with
      | some r => (some r, s)
      | none =>
        let profileData :=
          Json.obj (spreadFields (defaultProfileFields now initialData) initialData)
        let r := s.heap.length
        let refs1 := mset s.profileRefs normalizedId r
        let refs2 := if normalizedId ≠ userId then mset refs1 userId r else refs1
        (some r, { s with profileRefs := refs2, heap := s.heap ++ [profileData] })

/-- The function `getUserProfile` from `src/utils/permissions.js`: direct lookup first;
then the normalized key (backfilling the original key on a hit); then a
full scan comparing normalized forms of every stored key (backfilling
both the original and the normalized key on a hit); `none` when nothing
matches.  The returned reference identifies the record object. -/
def getUserProfile (s : Store) (userId : String) : Option Nat × Store :=
  if userId = "" then (none, s)
  else
    match mget s.profileRefs userId with
    | some r => (some r, s)
    | none =>
      let normalizedId := _normalizeJid userId
      match mget s.profileRefs normalizedId with
      | some r => (some r, { s with profileRefs := mset s.profileRefs userId r })
      | none =>
        match s.profileRefs.find? (fun kv => _normalizeJid kv.1 == normalizedId) with
        | some kv =>
          (some kv.2,
           { s with profileRefs := mset (mset s.profileRefs userId kv.2) normalizedId kv.2 })
        | none => (none, s)

theorem mget_mset_self {α : Type} (m : List (String × α)) (k : String) (v : α) :
    mget (mset m k v) k = some v := by
  induction m with
  | nil => simp [mset, mget]
  | cons h t ih =>
    obtain ⟨k', v'⟩ := h
    by_cases hk : k' = k
    · simp [mset, hk, mget]
    · simp [mset, hk, mget, ih]

theorem mget_mset_ne {α : Type} (m : List (String × α)) (k k' : String) (v : α)
    (h : k' ≠ k) : mget (mset m k v) k' = mget m k' := by
  induction m with
  | nil => simp [mset, mget, Ne.symm h]
  | cons hd t ih =>
    obtain ⟨k'', v''⟩ := hd
    by_cases hk : k'' = k
    · subst hk
      simp [mset, mget, Ne.symm h]
    · by_cases hk2 : k'' = k'
      · subst hk2
        simp [mset, mget, h, hk]
      · simp [mset, mget, hk, hk2, ih]

theorem mget_mset_isSome {α : Type} (m : List (String × α)) (k k' : String) (v : α)
    (h : (mget m k').isSome) : (mget (mset m k v) k').isSome := by
  by_cases hk : k' = k
  · subst hk; rw [mget_mset_self]; rfl
  · rw [mget_mset_ne m k k' v hk]; exact h

theorem mem_of_mget_eq_some {α : Type} (m : List (String × α)) (k : String) (v : α)
    (h : mget m k = some v) : (k, v) ∈ m := by
  induction m with
  | nil => simp [mget] at h
  | cons hd t ih =>
    obtain ⟨k', v'⟩ := hd
    by_cases hk : k' = k
    · subst hk
      simp [mget] at h
      simp [h]
    · simp [mget, hk] at h
      exact List.mem_cons_of_mem _ (ih h)

theorem mget_eq_some_of_mem_nodup {α : Type} (m : List (String × α)) (k : String) (v : α)
    (hnd : (m.map Prod.fst).Nodup) (h : (k, v) ∈ m) : mget m k = some v := by
  induction m with
  | nil => simp at h
  | cons hd t ih =>
    obtain ⟨k', v'⟩ := hd
    simp only [List.map_cons, List.nodup_cons] at hnd
    rcases List.mem_cons.mp h with h1 | h1
    · rw [Prod.mk.injEq] at h1
      obtain ⟨e1, e2⟩ := h1
      simp [mget, e1, e2]
    · by_cases hk : k' = k
      · exfalso
        subst hk
        exact hnd.1 (List.mem_map.mpr ⟨(k', v), h1, rfl⟩)
      · simp [mget, hk]
        exact ih hnd.2 h1

theorem keys_mset_sub {α : Type} (m : List (String × α)) (k x : String) (v : α)
    (h : x ∈ (mset m k v).map Prod.fst) : x ∈ m.map Prod.fst ∨ x = k := by
  induction m with
  | nil =>
    right
    simp [mset] at h
    exact h
  | cons hd t ih =>
    obtain ⟨k', v'⟩ := hd
    by_cases hk : k' = k
    · subst hk
      simp only [mset, eq_self_iff_true, if_true, List.map_cons, List.mem_cons] at h
      rcases h with h | h
      · right; exact h
      · left
        simp only [List.map_cons, List.mem_cons]
        right; exact h
    · simp only [mset, if_neg hk, List.map_cons, List.mem_cons] at h
      rcases h with h | h
      · left
        simp only [List.map_cons, List.mem_cons]
        left; exact h
      · rcases ih h with h2 | h2
        · left
          simp only [List.map_cons, List.mem_cons]
          right; exact h2
        · right; exact h2

theorem keys_mset_nodup {α : Type} (m : List (String × α)) (k : String) (v : α)
    (hnd : (m.map Prod.fst).Nodup) : ((mset m k v).map Prod.fst).Nodup := by
  induction m with
  | nil => simp [mset]
  | cons hd t ih =>
    obtain ⟨k', v'⟩ := hd
    simp only [List.map_cons, List.nodup_cons] at hnd
    by_cases hk : k' = k
    · subst hk
      simp only [mset, eq_self_iff_true, if_true, List.map_cons, List.nodup_cons]
      exact hnd
    · simp only [mset, if_neg hk, List.map_cons, List.nodup_cons]
      refine ⟨fun hmem => ?_, ih hnd.2⟩
      rcases keys_mset_sub t k k' v hmem with h2 | h2
      · exact hnd.1 h2
      · exact hk h2

theorem mget_filter_key {α : Type} (m : List (String × α)) (q : String → Bool) (k : String) :
    mget (m.filter (fun kv => q kv.1)) k = if q k then mget m k else none := by
  induction m with
  | nil => simp [mget]
  | cons hd t ih =>
    obtain ⟨k', v'⟩ := hd
    by_cases hq : q k'
    · rw [List.filter_cons_of_pos (by simpa using hq)]
      by_cases hk : k' = k
      · subst hk; simp [mget, hq]
      · simp only [mget, if_neg hk]
        exact ih
    · rw [List.filter_cons_of_neg (by simpa using hq)]
      by_cases hk : k' = k
      · subst hk
        simp [mget, ih, hq]
      · simp only [mget, if_neg hk]
        exact ih

theorem ne_append_of_len (p s : String) (h : 0 < s.length) : p ++ s ≠ p := by
  intro e
  have h2 := congrArg String.length e
  rw [String.length_append] at h2
  omega

theorem listPrefix_self (l : List Char) : listPrefix l l = true := by
  induction l with
  | nil => rfl
  | cons c t ih => simp [listPrefix, ih]

theorem hasSub_append_self (pat pre : List Char) : hasSub pat (pre ++ pat) = true := by
  induction pre with
  | nil =>
    cases pat with
    | nil => rfl
    | cons c t =>
      simp [hasSub, listPrefix_self]
  | cons c pre ih =>
    simp [hasSub, ih]

theorem jsIncludes_append (a b : String) : jsIncludes (a ++ b) b = true := by
  unfold jsIncludes
  have h : (a ++ b).toList = a.toList ++ b.toList := by simp [String.toList]
  rw [h]
  exact hasSub_append_self _ _

theorem normalize_of_gus (x : String) (h : jsIncludes x "@g.us" = true) :
    _normalizeJid x = x := by
  have hne : x ≠ "" := by
    intro e
    subst e
    exact absurd h (by decide)
  unfold _normalizeJid
  simp [hne, h]

theorem normalize_of_swn (x : String) (h : jsIncludes x "@s.whatsapp.net" = true) :
    _normalizeJid x = x := by
  have hne : x ≠ "" := by
    intro e
    subst e
    exact absurd h (by decide)
  by_cases hg : jsIncludes x "@g.us" = true
  · unfold _normalizeJid
    simp [hne, hg]
  · unfold _normalizeJid
    simp [hne, hg, h]

theorem normalize_default (x : String) (h1 : x ≠ "") (h2 : ¬jsIncludes x "@g.us" = true)
    (h3 : ¬jsIncludes x "@s.whatsapp.net" = true) :
    _normalizeJid x = String.mk (x.toList.takeWhile (fun c => c ≠ '@')) ++ "@s.whatsapp.net" := by
  unfold _normalizeJid
  simp [h1, h2, h3]

theorem normalizeJid_idem (x : String) :
    _normalizeJid (_normalizeJid x) = _normalizeJid x := by
  by_cases h0 : x = ""
  · subst h0; rfl
  by_cases hg : jsIncludes x "@g.us" = true
  · have h := normalize_of_gus x hg
    rw [h, h]
  by_cases hs : jsIncludes x "@s.whatsapp.net" = true
  · have h := normalize_of_swn x hs
    rw [h, h]
  rw [normalize_default x h0 hg hs]
  exact normalize_of_swn _ (jsIncludes_append _ _)

/-- C9: identifier normalization is idempotent — `normalize(normalize(x))`
equals `normalize(x)` for every identifier string; group-style
identifiers (containing `@g.us`) pass through unchanged; and an
already-normalized direct-message identifier (containing
`@s.whatsapp.net`) yields itself. -/
theorem c9_normalize_idempotent (x : String) :
    _normalizeJid (_normalizeJid x) = _normalizeJid x
    ∧ (jsIncludes x "@g.us" = true → _normalizeJid x = x)
    ∧ (jsIncludes x "@s.whatsapp.net" = true → _normalizeJid x = x) :=
  ⟨normalizeJid_idem x, normalize_of_gus x, normalize_of_swn x⟩

/-- Witness for C9 at a concrete identifier satisfying both side
conditions. -/
theorem c9_witness :
    _normalizeJid (_normalizeJid "123@g.us@s.whatsapp.net")
      = _normalizeJid "123@g.us@s.whatsapp.net"
    ∧ _normalizeJid "123@g.us@s.whatsapp.net" = "123@g.us@s.whatsapp.net"
    ∧ _normalizeJid "123@g.us@s.whatsapp.net" = "123@g.us@s.whatsapp.net" :=
  ⟨(c9_normalize_idempotent "123@g.us@s.whatsapp.net").1,
   (c9_normalize_idempotent "123@g.us@s.whatsapp.net").2.1 (by decide),
   (c9_normalize_idempotent "123@g.us@s.whatsapp.net").2.2 (by decide)⟩

theorem mget_copyBakStep_ne (copyOk : Bool) (fs : List (String × FileData))
    (p bp q : String) (hq : q ≠ bp) :
    mget (copyBakStep copyOk fs p bp) q = mget fs q := by
  unfold copyBakStep
  cases hc : mget fs p with
  | none => rfl
  | some c =>
    cases copyOk with
    | false => simp
    | true =>
      simp only [if_true]
      exact mget_mset_ne fs bp q c hq

/-- C2: if `saveAllUserData` fails at any step (directory creation,
serialization, temporary-file write, re-read validation of the temporary
file, or rename), it returns a structured failure result with
`success = false`, and the previous content of the target file is left
unchanged — in particular, a run that stops after the temporary file is
written but before the rename (the validation- or rename-failure cases)
leaves the target file's prior content intact. -/
theorem c2_saveAll_failure_leaves_target
    (env : SaveEnv) (now : String) (nowMs : Nat) (s : Store)
    (fs : List (String × FileData)) (filename : String)
    (hfail : env.mkdirOk = false ∨ env.stringifyOk = false ∨ env.writeTempOk = false
      ∨ env.readTempOk = false ∨ env.renameOk = false) :
    (saveAllUserData env now nowMs s fs filename).1.success = false
    ∧ mget (saveAllUserData env now nowMs s fs filename).2 ("data/" ++ filename)
        = mget fs ("data/" ++ filename) := by
  obtain ⟨mk, cb, st, wt, rt, rn⟩ := env
  simp only at hfail
  have hbak : ("data/" ++ filename) ≠ ("data/" ++ filename) ++ ".bak" :=
    Ne.symm (ne_append_of_len _ _ (by decide))
  have htmp : ("data/" ++ filename) ≠ ("data/" ++ filename) ++ ".temp." ++ toString nowMs := by
    intro e
    have h2 := congrArg String.length e
    simp only [String.length_append] at h2
    have h6 : 0 < (".temp." : String).length := by decide
    omega
  have h1 : ∀ (c : Bool),
      mget (copyBakStep c fs ("data/" ++ filename) (("data/" ++ filename) ++ ".bak"))
        ("data/" ++ filename) = mget fs ("data/" ++ filename) :=
    fun c => mget_copyBakStep_ne c fs _ _ _ hbak
  have h2 : ∀ (c : Bool) (ud : FileData),
      mget (mset (copyBakStep c fs ("data/" ++ filename) (("data/" ++ filename) ++ ".bak"))
              (("data/" ++ filename) ++ ".temp." ++ toString nowMs) ud)
        ("data/" ++ filename) = mget fs ("data/" ++ filename) := by
    intro c ud
    rw [mget_mset_ne _ _ _ _ htmp, h1]
  cases mk <;> cases cb <;> cases st <;> cases wt <;> cases rt <;> cases rn <;>
    simp_all [saveAllUserData, h1, h2]

/-- Witness for C2: a run failing only at the rename step, on a
filesystem whose target file holds prior content. -/
theorem c2_witness :
    (saveAllUserData ⟨true, true, true, true, true, false⟩ "T" 5 emptyStore
        [("data/user_data.json", .junk "old")] "user_data.json").1.success = false
    ∧ mget (saveAllUserData ⟨true, true, true, true, true, false⟩ "T" 5 emptyStore
          [("data/user_data.json", .junk "old")] "user_data.json").2
        ("data/" ++ "user_data.json")
      = mget [("data/user_data.json", FileData.junk "old")] ("data/" ++ "user_data.json") :=
  c2_saveAll_failure_leaves_target ⟨true, true, true, true, true, false⟩ "T" 5 emptyStore
    [("data/user_data.json", .junk "old")] "user_data.json"
    (Or.inr (Or.inr (Or.inr (Or.inr rfl))))

/-- C6: `createBackup` returns `false`, without throwing, for an empty
(falsy) payload; for a non-empty payload, once the write phase is
reached (every location directory created), it returns `true` after
attempting every location — regardless of how many per-location writes
fail. -/
theorem c6_createBackup_result (hash : String → String) (nowMs : Nat) (session : String)
    (creds : Option Json) (dirs : List BDir) :
    (jsTruthy creds = false → createBackup hash nowMs session creds dirs = (false, dirs))
    ∧ (jsTruthy creds = true → dirs.all (fun d => d.mkdirOk) = true →
        (createBackup hash nowMs session creds dirs).1 = true) := by
  constructor
  · intro h
    simp [createBackup, h]
  · intro h hm
    cases creds with
    | none => simp [jsTruthy] at h
    | some c => simp [createBackup, h, hm]

/-- Witness for C6: an empty payload is rejected; a non-empty payload
returns `true` across two locations even though one location's writes
fail. -/
theorem c6_witness :
    createBackup (fun s => s) 7 "S" none [] = (false, [])
    ∧ (createBackup (fun s => s) 7 "S" (some (.obj []))
        [⟨true, false, []⟩, ⟨true, true, []⟩]).1 = true :=
  ⟨(c6_createBackup_result (fun s => s) 7 "S" none []).1 rfl,
   (c6_createBackup_result (fun s => s) 7 "S" (some (.obj []))
      [⟨true, false, []⟩, ⟨true, true, []⟩]).2 rfl rfl⟩

/-- C5 (amended): if `loadAllUserData` reads an existing source file whose
content is non-whitespace and not valid JSON, it writes a copy of that
exact content to a quarantine file whose name carries a
`.corrupted.<timestamp>` suffix, returns a failure result, and leaves
every in-memory collection exactly as it was before the call.  (A
whitespace-only file — existing, non-empty and equally invalid JSON — is
instead classified as a read error and NOT quarantined, which is the
correction to the claim as stated.) -/
theorem c5_corrupted_quarantine (env : LoadEnv) (nowMs : Nat) (s : Store)
    (fs : List (String × FileData)) (filename raw : String)
    (hmk : env.mkdirOk = true)
    (hfile : mget fs ("data/" ++ filename) = some (.junk raw))
    (hraw : jsTrimEmpty raw = false) :
    (loadAllUserData env nowMs s fs filename).1.success = false
    ∧ (loadAllUserData env nowMs s fs filename).2.1 = s
    ∧ mget (loadAllUserData env nowMs s fs filename).2.2
        (("data/" ++ filename) ++ ".corrupted." ++ toString nowMs) = some (.junk raw) := by
  refine ⟨?_, ?_, ?_⟩ <;>
    simp [loadAllUserData, hmk, hfile, hraw, mget_mset_self]

/-- Counterexample to C5 as stated: a whitespace-only source file exists,
is non-empty, and is not valid JSON, yet `loadAllUserData` reports a read
failure WITHOUT writing any `.corrupted.<timestamp>` quarantine copy (the
filesystem is returned unchanged). -/
theorem c5_counterexample :
    (" " : String) ≠ ""
    ∧ (loadAllUserData ⟨true, false⟩ 9 emptyStore
        [("data/user_data.json", .junk " ")] "user_data.json").1.success = false
    ∧ mget (loadAllUserData ⟨true, false⟩ 9 emptyStore
          [("data/user_data.json", .junk " ")] "user_data.json").2.2
        ("data/user_data.json" ++ ".corrupted." ++ toString 9) = none
    ∧ (loadAllUserData ⟨true, false⟩ 9 emptyStore
        [("data/user_data.json", .junk " ")] "user_data.json").2.2
      = [("data/user_data.json", FileData.junk " ")] :=
  ⟨by decide, rfl, rfl, rfl⟩

/-- Witness for C5 (amended) on a concrete corrupted file. -/
theorem c5_witness :
    (loadAllUserData ⟨true, false⟩ 3 emptyStore
        [("data/user_data.json", .junk "oops")] "user_data.json").1.success = false
    ∧ (loadAllUserData ⟨true, false⟩ 3 emptyStore
        [("data/user_data.json", .junk "oops")] "user_data.json").2.1 = emptyStore
    ∧ mget (loadAllUserData ⟨true, false⟩ 3 emptyStore
          [("data/user_data.json", .junk "oops")] "user_data.json").2.2
        (("data/" ++ "user_data.json") ++ ".corrupted." ++ toString 3)
      = some (.junk "oops") :=
  c5_corrupted_quarantine ⟨true, false⟩ 3 emptyStore
    [("data/user_data.json", .junk "oops")] "user_data.json" "oops" rfl rfl (by decide)

/-- C1 (amended): when a location's latest-pointer file parses but its
recomputed digest differs from the digest stored in its metadata,
`restoreBackup` rejects the latest-pointer and skips that ENTIRE
location — its timestamped snapshots are not consulted — continuing with
the next configured location; the newest-first (descending filename
order) timestamped fallback runs only when the latest-pointer is missing
or unparsable, returning the payload of the first snapshot that
parses. -/
theorem c1_digest_mismatch_skips_location (hash : String → String) (d : BackupDir)
    (rest : List BackupDir) (hacc : d.accessible = true)
    (hm : latestOutcome hash d.files = .mismatch) :
    restoreBackup hash (d :: rest) = restoreBackup hash rest
    ∧ (∀ (d2 : BackupDir) (rest2 : List BackupDir), d2.accessible = true →
        latestOutcome hash d2.files = .fallthrough →
        restoreBackup hash (d2 :: rest2) =
          match snapshotScan d2.files (backupCandidates d2.files) with
          | some v => v
          | none => restoreBackup hash rest2) := by
  constructor
  · simp [restoreBackup, hacc, hm]
  · intro d2 rest2 h2 hf
    simp [restoreBackup, h2, hf]

/-- Counterexample to C1 as stated: one accessible location whose
latest-pointer parses with a stored digest `"X"` different from the
recomputed digest `"H"`, and whose timestamped snapshot parses with
payload `"S"`.  The claim says `restoreBackup` falls back to that
location's snapshots and returns `"S"`; the code instead `continue`s past
the whole location and returns `none`. -/
theorem c1_counterexample :
    latestOutcome (fun _ => "H")
        [("latest_creds.json",
          FileData.text (.obj [("creds", .str "P"), ("meta", .obj [("checksum", .str "X")])])),
         ("creds_backup_100.json", FileData.text (.obj [("creds", .str "S")]))]
      = .mismatch
    ∧ snapshotScan
        [("latest_creds.json",
          FileData.text (.obj [("creds", .str "P"), ("meta", .obj [("checksum", .str "X")])])),
         ("creds_backup_100.json", FileData.text (.obj [("creds", .str "S")]))]
        (backupCandidates
          [("latest_creds.json",
            FileData.text (.obj [("creds", .str "P"), ("meta", .obj [("checksum", .str "X")])])),
           ("creds_backup_100.json", FileData.text (.obj [("creds", .str "S")]))])
      = some (some (.str "S"))
    ∧ restoreBackup (fun _ => "H")
        [⟨true,
          [("latest_creds.json",
            FileData.text (.obj [("creds", .str "P"), ("meta", .obj [("checksum", .str "X")])])),
           ("creds_backup_100.json", FileData.text (.obj [("creds", .str "S")]))]⟩]
      = none :=
  ⟨rfl, rfl, rfl⟩

/-- Witness for C1 (amended) on the concrete mismatching location. -/
theorem c1_witness :
    restoreBackup (fun _ => "H")
        [⟨true,
          [("latest_creds.json",
            FileData.text (.obj [("creds", .str "P"), ("meta", .obj [("checksum", .str "X")])])),
           ("creds_backup_100.json", FileData.text (.obj [("creds", .str "S")]))]⟩]
      = restoreBackup (fun _ => "H") [] :=
  (c1_digest_mismatch_skips_location (fun _ => "H")
    ⟨true,
      [("latest_creds.json",
        FileData.text (.obj [("creds", .str "P"), ("meta", .obj [("checksum", .str "X")])])),
       ("creds_backup_100.json", FileData.text (.obj [("creds", .str "S")]))]⟩
    [] rfl rfl).1

/-- C3 (code bug): a store holding one profile and one game entry loads a
valid file, and an exception strikes during repopulation (after the
profiles phase).  The catch handler's rollback guard
`Object.keys(backupData.profiles).length > 0` evaluates `Object.keys` on
a `Map`, which is always `[]`, so the snapshot captured before the clear
is never restored: the call returns failure with the store left
partially populated (the file's profile loaded, every other collection
still cleared) instead of the pre-call snapshot. -/
theorem c3_rollback_never_runs :
    (loadAllUserData ⟨true, true⟩ 11
        { profileRefs := [("42@s.whatsapp.net", 0)],
          heap := [.obj [("name", .str "A")]],
          userGames := [("42@s.whatsapp.net", .obj [("g", .num 1)])],
          marriageData := [], bankAccounts := [], userJobs := [], petData := [],
          userAfk := [], streakData := [], checkinData := [], lotteryParticipants := [] }
        [("data/user_data.json",
          .text (.obj [("profiles", .obj [("7@s.whatsapp.net", .obj [("name", .str "B")])]),
                       ("games", .obj [("7@s.whatsapp.net", .obj [("g", .num 2)])])]))]
        "user_data.json").1.success = false
    ∧ (loadAllUserData ⟨true, true⟩ 11
        { profileRefs := [("42@s.whatsapp.net", 0)],
          heap := [.obj [("name", .str "A")]],
          userGames := [("42@s.whatsapp.net", .obj [("g", .num 1)])],
          marriageData := [], bankAccounts := [], userJobs := [], petData := [],
          userAfk := [], streakData := [], checkinData := [], lotteryParticipants := [] }
        [("data/user_data.json",
          .text (.obj [("profiles", .obj [("7@s.whatsapp.net", .obj [("name", .str "B")])]),
                       ("games", .obj [("7@s.whatsapp.net", .obj [("g", .num 2)])])]))]
        "user_data.json").2.1.profileRefs = [("7@s.whatsapp.net", 1)]
    ∧ (loadAllUserData ⟨true, true⟩ 11
        { profileRefs := [("42@s.whatsapp.net", 0)],
          heap := [.obj [("name", .str "A")]],
          userGames := [("42@s.whatsapp.net", .obj [("g", .num 1)])],
          marriageData := [], bankAccounts := [], userJobs := [], petData := [],
          userAfk := [], streakData := [], checkinData := [], lotteryParticipants := [] }
        [("data/user_data.json",
          .text (.obj [("profiles", .obj [("7@s.whatsapp.net", .obj [("name", .str "B")])]),
                       ("games", .obj [("7@s.whatsapp.net", .obj [("g", .num 2)])])]))]
        "user_data.json").2.1.userGames = []
    ∧ [("42@s.whatsapp.net", Json.obj [("g", .num 1)])] ≠ ([] : List (String × Json))
    ∧ jsObjectKeysOfMap [("42@s.whatsapp.net", 0)] = [] :=
  ⟨rfl, rfl, rfl, by simp, rfl⟩

theorem strLeChars_total (a : List Char) : ∀ b, strLeChars a b = true ∨ strLeChars b a = true := by
  induction a with
  | nil => intro b; left; rfl
  | cons x xs ih =>
    intro b
    cases b with
    | nil => right; rfl
    | cons y ys =>
      by_cases h1 : x.toNat < y.toNat
      · left; simp [strLeChars, h1]
      · by_cases h2 : y.toNat < x.toNat
        · right; simp [strLeChars, h2]
        · rcases ih ys with h | h
          · left; simp [strLeChars, h1, h2, h]
          · right; simp [strLeChars, h1, h2, h]

theorem strLeChars_trans (a : List Char) :
    ∀ b c, strLeChars a b = true → strLeChars b c = true → strLeChars a c = true := by
  induction a with
  | nil => intro b c _ _; rfl
  | cons x xs ih =>
    intro b c h1 h2
    cases b with
    | nil => simp [strLeChars] at h1
    | cons y ys =>
      cases c with
      | nil => simp [strLeChars] at h2
      | cons z zs =>
        simp only [strLeChars] at h1 h2 ⊢
        by_cases hxy : x.toNat < y.toNat
        · by_cases hyz : y.toNat < z.toNat
          · have hxz : x.toNat < z.toNat := by omega
            simp [hxz]
          · by_cases hzy : z.toNat < y.toNat
            · simp [hyz, hzy] at h2
            · have hxz : x.toNat < z.toNat := by omega
              simp [hxz]
        · by_cases hyx : y.toNat < x.toNat
          · simp [hxy, hyx] at h1
          · simp only [if_neg hxy, if_neg hyx] at h1
            by_cases hyz : y.toNat < z.toNat
            · have hxz : x.toNat < z.toNat := by omega
              simp [hxz]
            · by_cases hzy : z.toNat < y.toNat
              · simp [hyz, hzy] at h2
              · simp only [if_neg hyz, if_neg hzy] at h2
                have hxz1 : ¬ x.toNat < z.toNat := by omega
                have hxz2 : ¬ z.toNat < x.toNat := by omega
                simp only [if_neg hxz1, if_neg hxz2]
                exact ih ys zs h1 h2

theorem strLe_total (a b : String) : strLe a b = true ∨ strLe b a = true :=
  strLeChars_total a.toList b.toList

theorem strLe_trans (a b c : String) (h1 : strLe a b = true) (h2 : strLe b c = true) :
    strLe a c = true :=
  strLeChars_trans a.toList b.toList c.toList h1 h2

theorem sortStr_perm (l : List String) : (sortStr l).Perm l :=
  List.perm_insertionSort _ l

theorem sortStr_sorted (l : List String) :
    List.Sorted (fun a b => strLe a b = true) (sortStr l) :=
  @List.sorted_insertionSort String (fun a b => strLe a b = true)
    (fun _ _ => inferInstance) ⟨strLe_total⟩ ⟨strLe_trans⟩ l

theorem contains_iff_mem (l : List String) (a : String) : l.contains a = true ↔ a ∈ l :=
  List.elem_iff

theorem mget_filter_not_contains {α : Type} (m : List (String × α)) (R : List String)
    (k : String) :
    mget (m.filter (fun kv => !(R.contains kv.1))) k
      = if R.contains k = true then none else mget m k := by
  have h := mget_filter_key m (fun x => !(R.contains x)) k
  cases hcv : R.contains k
  · have hmem : k ∉ R := fun hm => by
      rw [(contains_iff_mem R k).mpr hm] at hcv
      cases hcv
    simpa [hmem] using h
  · have hmem : k ∈ R := (contains_iff_mem R k).mp hcv
    simpa [hmem] using h

theorem map_fst_filter_key {α : Type} (m : List (String × α)) (p : String → Bool) :
    (m.filter (fun kv => p kv.1)).map Prod.fst = (m.map Prod.fst).filter p := by
  induction m with
  | nil => rfl
  | cons h t ih =>
    by_cases hp : p h.1 <;> simp [List.filter, hp, ih]

theorem map_fst_filter_not_contains {α : Type} (m : List (String × α)) (R : List String) :
    (m.filter (fun kv => !(R.contains kv.1))).map Prod.fst
      = (m.map Prod.fst).filter (fun x => !(R.contains x)) :=
  map_fst_filter_key m (fun x => !(R.contains x))

theorem cleanup_preserves_nonbackup (files : List (String × FileData)) (q : String)
    (hq : isBackupName q = false) :
    mget (cleanupOldBackups files) q = mget files q := by
  by_cases hlen : ((files.map Prod.fst).filter isBackupName).length > 10
  · simp only [cleanupOldBackups, if_pos hlen]
    rw [mget_filter_not_contains]
    have hqR : ((sortStr ((files.map Prod.fst).filter isBackupName)).take
        (((files.map Prod.fst).filter isBackupName).length - 10)).contains q = false := by
      by_contra hc
      have hc2 : q ∈ (sortStr ((files.map Prod.fst).filter isBackupName)).take
          (((files.map Prod.fst).filter isBackupName).length - 10) :=
        (contains_iff_mem _ _).mp (by
          cases hcv : ((sortStr ((files.map Prod.fst).filter isBackupName)).take
              (((files.map Prod.fst).filter isBackupName).length - 10)).contains q
          · exact absurd hcv hc
          · rfl)
      have hc3 : q ∈ (files.map Prod.fst).filter isBackupName :=
        ((sortStr_perm _).mem_iff).mp (List.mem_of_mem_take hc2)
      have hc4 := (List.mem_filter.mp hc3).2
      rw [hq] at hc4
      exact absurd hc4 (by decide)
    rw [hqR]
    simp
  · simp only [cleanupOldBackups, if_neg hlen]

theorem length_filter_not_contains_append (R D : List String) (hdisj : R.Disjoint D) :
    ((R ++ D).filter (fun a => !(R.contains a))).length = D.length := by
  rw [List.filter_append]
  have hR0 : R.filter (fun a => !(R.contains a)) = [] := by
    rw [List.filter_eq_nil_iff]
    intro a ha
    simp only [Bool.not_eq_true', Bool.not_eq_false]
    exact (contains_iff_mem _ _).mpr ha
  have hD1 : D.filter (fun a => !(R.contains a)) = D := by
    rw [List.filter_eq_self]
    intro a ha
    have hnotin : a ∉ R := fun hc => hdisj hc ha
    simp only [Bool.not_eq_true']
    cases hcv : R.contains a
    · rfl
    · exact absurd ((contains_iff_mem _ _).mp hcv) hnotin
  rw [hR0, hD1, List.nil_append]

theorem length_filter_not_take_contains (N : List String) (s : Nat) (hNnd : N.Nodup) :
    (N.filter (fun a => !(((sortStr N).take s).contains a))).length = N.length - s := by
  have hSnd : (sortStr N).Nodup := ((sortStr_perm N).nodup_iff).mpr hNnd
  have hdisj : ((sortStr N).take s).Disjoint ((sortStr N).drop s) := by
    have h2 : ((sortStr N).take s ++ (sortStr N).drop s).Nodup := by
      rw [List.take_append_drop]
      exact hSnd
    exact (List.nodup_append.mp h2).2.2
  have hperm := ((sortStr_perm N).symm).filter (fun a => !(((sortStr N).take s).contains a))
  rw [hperm.length_eq]
  have hfeq : (sortStr N).filter (fun a => !(((sortStr N).take s).contains a))
      = (((sortStr N).take s) ++ ((sortStr N).drop s)).filter
          (fun a => !(((sortStr N).take s).contains a)) := by
    rw [List.take_append_drop]
  rw [hfeq, length_filter_not_contains_append _ _ hdisj, List.length_drop]
  rw [(sortStr_perm N).length_eq]

theorem cleanup_count (files : List (String × FileData))
    (hnd : (files.map Prod.fst).Nodup) :
    (((cleanupOldBackups files).map Prod.fst).filter isBackupName).length
      = min ((files.map Prod.fst).filter isBackupName).length 10 := by
  by_cases hlen : ((files.map Prod.fst).filter isBackupName).length > 10
  · simp only [cleanupOldBackups, if_pos hlen]
    rw [map_fst_filter_not_contains, List.filter_filter]
    have hcg : ((files.map Prod.fst).filter (fun a =>
          isBackupName a
          && !(((sortStr ((files.map Prod.fst).filter isBackupName)).take
            (((files.map Prod.fst).filter isBackupName).length - 10)).contains a)))
        = ((files.map Prod.fst).filter isBackupName).filter (fun a =>
            !(((sortStr ((files.map Prod.fst).filter isBackupName)).take
              (((files.map Prod.fst).filter isBackupName).length - 10)).contains a)) := by
      rw [List.filter_filter]
      exact List.filter_congr (fun x _ => Bool.and_comm _ _)
    rw [hcg, length_filter_not_take_contains _ _ (List.Nodup.filter _ hnd)]
    have h10 : min ((files.map Prod.fst).filter isBackupName).length 10 = 10 :=
      Nat.min_eq_right (by omega)
    rw [h10]
    omega
  · simp only [cleanupOldBackups, if_neg hlen]
    rw [Nat.min_eq_left (Nat.le_of_not_lt hlen)]

theorem cleanup_removed_le_kept (files : List (String × FileData)) (a b : String)
    (hnd : (files.map Prod.fst).Nodup) (hb : isBackupName b = true)
    (ha1 : mget files a ≠ none) (ha2 : mget (cleanupOldBackups files) a = none)
    (hb2 : mget (cleanupOldBackups files) b ≠ none) : strLe a b = true := by
  by_cases hlen : ((files.map Prod.fst).filter isBackupName).length > 10
  · simp only [cleanupOldBackups, if_pos hlen] at ha2 hb2
    rw [mget_filter_not_contains] at ha2 hb2
    by_cases hca : ((sortStr ((files.map Prod.fst).filter isBackupName)).take
        (((files.map Prod.fst).filter isBackupName).length - 10)).contains a = true
    · by_cases hcb : ((sortStr ((files.map Prod.fst).filter isBackupName)).take
          (((files.map Prod.fst).filter isBackupName).length - 10)).contains b = true
      · rw [if_pos hcb] at hb2
        exact absurd rfl hb2
      · rw [if_neg hcb] at hb2
        have haR : a ∈ (sortStr ((files.map Prod.fst).filter isBackupName)).take
            (((files.map Prod.fst).filter isBackupName).length - 10) :=
          (contains_iff_mem _ _).mp hca
        have hbK : b ∈ files.map Prod.fst := by
          rcases Option.ne_none_iff_exists'.mp hb2 with ⟨v, hv⟩
          exact List.mem_map.mpr ⟨(b, v), mem_of_mget_eq_some _ _ _ hv, rfl⟩
        have hbN : b ∈ (files.map Prod.fst).filter isBackupName :=
          List.mem_filter.mpr ⟨hbK, hb⟩
        have hbS : b ∈ sortStr ((files.map Prod.fst).filter isBackupName) :=
          ((sortStr_perm _).mem_iff).mpr hbN
        have hbRD : b ∈ ((sortStr ((files.map Prod.fst).filter isBackupName)).take
              (((files.map Prod.fst).filter isBackupName).length - 10))
            ++ ((sortStr ((files.map Prod.fst).filter isBackupName)).drop
              (((files.map Prod.fst).filter isBackupName).length - 10)) := by
          rw [List.take_append_drop]
          exact hbS
        have hbD : b ∈ (sortStr ((files.map Prod.fst).filter isBackupName)).drop
            (((files.map Prod.fst).filter isBackupName).length - 10) := by
          rcases List.mem_append.mp hbRD with h | h
          · exact absurd ((contains_iff_mem _ _).mpr h) hcb
          · exact h
        have hsorted2 : List.Sorted (fun x y => strLe x y = true)
            (((sortStr ((files.map Prod.fst).filter isBackupName)).take
                (((files.map Prod.fst).filter isBackupName).length - 10))
              ++ ((sortStr ((files.map Prod.fst).filter isBackupName)).drop
                (((files.map Prod.fst).filter isBackupName).length - 10))) := by
          rw [List.take_append_drop]
          exact sortStr_sorted _
        exact (List.pairwise_append.mp hsorted2).2.2 a haR b hbD
    · rw [if_neg hca] at ha2
      exact absurd ha2 ha1
  · simp only [cleanupOldBackups, if_neg hlen] at ha2
    exact absurd ha2 ha1

/-- C7 (amended): after a `createBackup` call that reaches its write phase
(non-empty payload, every location directory created), every location
holds at most 10 timestamped snapshot files; when a location's snapshot
count exceeds the maximum, `cleanupOldBackups` leaves exactly
`min(count, 10)` snapshots, deleting exactly the surplus files that sort
first in ascending lexicographic FILENAME order (which coincides with
"oldest by embedded timestamp" only when the timestamps have equally
many digits); and retention pruning never touches a file whose name is
not a snapshot name — the latest-pointer `latest_creds.json` in
particular. -/
theorem c7_retention_bound (hash : String → String) (nowMs : Nat) (session : String)
    (creds : Json) (dirs : List BDir)
    (htr : jsTruthy (some creds) = true)
    (hmk : dirs.all (fun d => d.mkdirOk) = true)
    (hnd : ∀ d ∈ dirs, (d.files.map Prod.fst).Nodup) :
    (∀ d2 ∈ (createBackup hash nowMs session (some creds) dirs).2,
        ((d2.files.map Prod.fst).filter isBackupName).length ≤ 10)
    ∧ (∀ (files : List (String × FileData)) (q : String), isBackupName q = false →
        mget (cleanupOldBackups files) q = mget files q)
    ∧ (∀ (files : List (String × FileData)), (files.map Prod.fst).Nodup →
        (((cleanupOldBackups files).map Prod.fst).filter isBackupName).length
          = min ((files.map Prod.fst).filter isBackupName).length 10)
    ∧ (∀ (files : List (String × FileData)) (a b : String),
        (files.map Prod.fst).Nodup → isBackupName b = true →
        mget files a ≠ none → mget (cleanupOldBackups files) a = none →
        mget (cleanupOldBackups files) b ≠ none → strLe a b = true) := by
  refine ⟨?_, cleanup_preserves_nonbackup, cleanup_count, ?_⟩
  · intro d2 hd2
    simp only [createBackup, htr, hmk, Bool.not_true] at hd2
    rcases List.mem_map.mp hd2 with ⟨d, hd, rfl⟩
    have hwnd : (((if d.writeOk then
          mset (mset d.files ("creds_backup_" ++ toString nowMs ++ ".json")
            (backupContent hash nowMs session creds)) "latest_creds.json"
            (backupContent hash nowMs session creds)
        else d.files)).map Prod.fst).Nodup := by
      cases hw : d.writeOk
      · rw [if_neg (by decide)]
        exact hnd d hd
      · rw [if_pos rfl]
        exact keys_mset_nodup _ _ _ (keys_mset_nodup _ _ _ (hnd d hd))
    simp only [backupDirStep]
    rw [cleanup_count _ hwnd]
    exact Nat.min_le_right _ _
  · intro files a b h1 h2 h3 h4 h5
    exact cleanup_removed_le_kept files a b h1 h2 h3 h4 h5

/-- Counterexample to C7 as stated: a location holding 11 snapshots whose
embedded timestamps are 999 and 1000..1009 (plus the latest-pointer).
The oldest snapshot by embedded timestamp is `creds_backup_999.json`,
but the code sorts by filename, so cleanup deletes
`creds_backup_1000.json` and keeps the 999 one — not "exactly the oldest
surplus". -/
theorem c7_counterexample :
    mget (cleanupOldBackups
        [("creds_backup_999.json", FileData.junk "a"),
         ("creds_backup_1000.json", FileData.junk "b"),
         ("creds_backup_1001.json", FileData.junk "c"),
         ("creds_backup_1002.json", FileData.junk "d"),
         ("creds_backup_1003.json", FileData.junk "e"),
         ("creds_backup_1004.json", FileData.junk "f"),
         ("creds_backup_1005.json", FileData.junk "g"),
         ("creds_backup_1006.json", FileData.junk "h"),
         ("creds_backup_1007.json", FileData.junk "i"),
         ("creds_backup_1008.json", FileData.junk "j"),
         ("creds_backup_1009.json", FileData.junk "k"),
         ("latest_creds.json", FileData.junk "L")])
      "creds_backup_999.json" = some (FileData.junk "a")
    ∧ mget (cleanupOldBackups
        [("creds_backup_999.json", FileData.junk "a"),
         ("creds_backup_1000.json", FileData.junk "b"),
         ("creds_backup_1001.json", FileData.junk "c"),
         ("creds_backup_1002.json", FileData.junk "d"),
         ("creds_backup_1003.json", FileData.junk "e"),
         ("creds_backup_1004.json", FileData.junk "f"),
         ("creds_backup_1005.json", FileData.junk "g"),
         ("creds_backup_1006.json", FileData.junk "h"),
         ("creds_backup_1007.json", FileData.junk "i"),
         ("creds_backup_1008.json", FileData.junk "j"),
         ("creds_backup_1009.json", FileData.junk "k"),
         ("latest_creds.json", FileData.junk "L")])
      "creds_backup_1000.json" = none
    ∧ mget (cleanupOldBackups
        [("creds_backup_999.json", FileData.junk "a"),
         ("creds_backup_1000.json", FileData.junk "b"),
         ("creds_backup_1001.json", FileData.junk "c"),
         ("creds_backup_1002.json", FileData.junk "d"),
         ("creds_backup_1003.json", FileData.junk "e"),
         ("creds_backup_1004.json", FileData.junk "f"),
         ("creds_backup_1005.json", FileData.junk "g"),
         ("creds_backup_1006.json", FileData.junk "h"),
         ("creds_backup_1007.json", FileData.junk "i"),
         ("creds_backup_1008.json", FileData.junk "j"),
         ("creds_backup_1009.json", FileData.junk "k"),
         ("latest_creds.json", FileData.junk "L")])
      "latest_creds.json" = some (FileData.junk "L")
    ∧ (999 : Nat) < 1000 :=
  ⟨rfl, rfl, rfl, by decide⟩

/-- Witness for C7 at a concrete call and location. -/
theorem c7_witness :
    (((cleanupOldBackups [("creds_backup_1.json", FileData.junk "x")]).map Prod.fst).filter
        isBackupName).length
      = min (([("creds_backup_1.json", FileData.junk "x")].map Prod.fst).filter
          isBackupName).length 10 :=
  (c7_retention_bound (fun _ => "h") 5 "S" (.obj []) [] rfl rfl (by simp)).2.2.1
    [("creds_backup_1.json", FileData.junk "x")] (by decide)

/-- C8 (amended): for one and the same logical credential payload `p`
(valid JSON whose parsed form has no truthy top-level `creds` or
`creds.json` field), `decompressCredsData` returns the identical
canonical payload string for (a) the plain base64 JSON blob, (b) the
archive blob produced by `compressCredsData` (canonical entry name
`creds.json`), and (c) a gzip stream of it; and when every decoding
strategy fails, it returns `null`.  (The no-`creds`-field proviso is the
correction: a payload carrying a truthy top-level `creds` field is
unwrapped and re-stringified by the gzip strategy, so the three results
are no longer identical — see the counterexample.) -/
theorem c8_decode_auto_detection (parse : String → Option Json) (p : String) (j : Json)
    (b1 b2 b3 : CredsBuffer)
    (hp : parse p = some j)
    (hc1 : jsTruthy (jsGet j "creds") = false)
    (hc2 : jsTruthy (jsGet j "creds.json") = false)
    (hb1u : b1.asUtf8 = p)
    (hb2u : parse b2.asUtf8 = none)
    (hb2z : b2.zipEntries = compressCredsData (some p))
    (hb3u : parse b3.asUtf8 = none)
    (hb3z : zipLookup b3 = none)
    (hb3g : b3.gunzipped = some p) :
    decompressCredsData parse b1 = some (.str p)
    ∧ decompressCredsData parse b2 = some (.str p)
    ∧ decompressCredsData parse b3 = some (.str p)
    ∧ (∀ b : CredsBuffer, parse b.asUtf8 = none → zipLookup b = none →
        (b.gunzipped = none ∨ (∃ s2, b.gunzipped = some s2 ∧ parse s2 = none)) →
        decompressCredsData parse b = none) := by
  refine ⟨?_, ?_, ?_, ?_⟩
  · simp [decompressCredsData, hb1u, hp]
  · simp [decompressCredsData, hb2u, zipLookup, hb2z, compressCredsData, entryFind]
  · simp [decompressCredsData, hb3u, hb3z, hb3g, hp, hc1, hc2]
  · intro b hbu hbz hg
    rcases hg with hg | ⟨s2, hg, hs2⟩
    · simp [decompressCredsData, hbu, hbz, hg]
    · simp [decompressCredsData, hbu, hbz, hg, hs2]

/-- Counterexample to C8 as stated: the logical payload
`{"creds":1}` is valid JSON, so the plain-base64 strategy returns it
verbatim; but the gzip strategy parses it, finds the truthy top-level
`creds` field, and returns `JSON.stringify` of that field — `"1"` — a
different string.  (`\x7b`/`\x7d` denote the literal braces.) -/
theorem c8_counterexample :
    decompressCredsData
        (fun s => if s = "\x7b\"creds\":1\x7d" then some (Json.obj [("creds", Json.num 1)])
                  else none)
        ⟨"\x7b\"creds\":1\x7d", none, none⟩
      = some (.str "\x7b\"creds\":1\x7d")
    ∧ decompressCredsData
        (fun s => if s = "\x7b\"creds\":1\x7d" then some (Json.obj [("creds", Json.num 1)])
                  else none)
        ⟨"GZBYTES", none, some "\x7b\"creds\":1\x7d"⟩
      = some (.str "1")
    ∧ ("1" : String) ≠ "\x7b\"creds\":1\x7d" :=
  ⟨rfl, rfl, by decide⟩

/-- Witness for C8 (amended) at a concrete payload `[]` and three
concrete buffers, plus a buffer on which every strategy fails. -/
theorem c8_witness :
    decompressCredsData (fun s => if s = "[]" then some (Json.arr []) else none)
        ⟨"[]", none, none⟩
      = some (.str "[]")
    ∧ decompressCredsData (fun s => if s = "[]" then some (Json.arr []) else none)
        ⟨"ZIPBYTES", some [("creds.json", "[]")], none⟩
      = some (.str "[]")
    ∧ decompressCredsData (fun s => if s = "[]" then some (Json.arr []) else none)
        ⟨"GZBYTES", none, some "[]"⟩
      = some (.str "[]")
    ∧ decompressCredsData (fun s => if s = "[]" then some (Json.arr []) else none)
        ⟨"XBYTES", none, none⟩
      = none :=
  ⟨(c8_decode_auto_detection (fun s => if s = "[]" then some (Json.arr []) else none)
      "[]" (Json.arr []) ⟨"[]", none, none⟩ ⟨"ZIPBYTES", some [("creds.json", "[]")], none⟩
      ⟨"GZBYTES", none, some "[]"⟩ rfl rfl rfl rfl rfl rfl rfl rfl rfl).1,
   (c8_decode_auto_detection (fun s => if s = "[]" then some (Json.arr []) else none)
      "[]" (Json.arr []) ⟨"[]", none, none⟩ ⟨"ZIPBYTES", some [("creds.json", "[]")], none⟩
      ⟨"GZBYTES", none, some "[]"⟩ rfl rfl rfl rfl rfl rfl rfl rfl rfl).2.1,
   (c8_decode_auto_detection (fun s => if s = "[]" then some (Json.arr []) else none)
      "[]" (Json.arr []) ⟨"[]", none, none⟩ ⟨"ZIPBYTES", some [("creds.json", "[]")], none⟩
      ⟨"GZBYTES", none, some "[]"⟩ rfl rfl rfl rfl rfl rfl rfl rfl rfl).2.2.1,
   (c8_decode_auto_detection (fun s => if s = "[]" then some (Json.arr []) else none)
      "[]" (Json.arr []) ⟨"[]", none, none⟩ ⟨"ZIPBYTES", some [("creds.json", "[]")], none⟩
      ⟨"GZBYTES", none, some "[]"⟩ rfl rfl rfl rfl rfl rfl rfl rfl rfl).2.2.2
     ⟨"XBYTES", none, none⟩ rfl rfl (Or.inl rfl)⟩

theorem loadProfilesGo_cons_obj (k0 : String) (v0 : Json) (rest : List (String × Json))
    (refs : List (String × Nat)) (heap : List Json) (cnt : Nat)
    (ho : isObjLike v0 = true) :
    loadProfilesGo ((k0, v0) :: rest) refs heap cnt
      = loadProfilesGo rest
          (if _normalizeJid k0 ≠ k0
           then mset (mset refs (_normalizeJid k0) heap.length) k0 heap.length
           else mset refs (_normalizeJid k0) heap.length)
          (heap ++ [v0]) (cnt + 1) := by
  simp [loadProfilesGo, ho]

theorem loadProfilesGo_cons_nonobj (k0 : String) (v0 : Json) (rest : List (String × Json))
    (refs : List (String × Nat)) (heap : List Json) (cnt : Nat)
    (ho : ¬isObjLike v0 = true) :
    loadProfilesGo ((k0, v0) :: rest) refs heap cnt = loadProfilesGo rest refs heap cnt := by
  simp [loadProfilesGo, ho]

theorem mget_refs2_cases (refs : List (String × Nat)) (k0 k : String) (L : Nat) :
    mget (if _normalizeJid k0 ≠ k0
          then mset (mset refs (_normalizeJid k0) L) k0 L
          else mset refs (_normalizeJid k0) L) k
      = if k = k0 ∨ k = _normalizeJid k0 then some L else mget refs k := by
  by_cases hnk : _normalizeJid k0 = k0
  · rw [if_neg (fun hcon => hcon hnk)]
    by_cases hk : k = _normalizeJid k0
    · rw [if_pos (Or.inr hk), hk]
      exact mget_mset_self _ _ _
    · have hk2 : k ≠ k0 := fun hcon => hk (hcon.trans hnk.symm)
      rw [if_neg (by tauto)]
      exact mget_mset_ne _ _ _ _ hk
  · rw [if_pos hnk]
    by_cases hk : k = k0
    · rw [if_pos (Or.inl hk), hk]
      rw [mget_mset_self]
    · by_cases hk2 : k = _normalizeJid k0
      · rw [if_pos (Or.inr hk2)]
        rw [mget_mset_ne _ _ _ _ hk, hk2]
        exact mget_mset_self _ _ _
      · rw [if_neg (by tauto)]
        rw [mget_mset_ne _ _ _ _ hk]
        exact mget_mset_ne _ _ _ _ hk2

theorem loadProfilesGo_stable (x : String) :
    ∀ (entries : List (String × Json)) (refs : List (String × Nat)) (heap : List Json)
      (cnt : Nat),
      (∀ e ∈ entries, _normalizeJid e.1 ≠ x ∧ e.1 ≠ x) →
      mget (loadProfilesGo entries refs heap cnt).1 x = mget refs x := by
  intro entries
  induction entries with
  | nil => intro refs heap cnt _; rfl
  | cons e rest ih =>
    intro refs heap cnt hx
    obtain ⟨k0, v0⟩ := e
    have hxk := hx (k0, v0) (List.mem_cons_self _ _)
    have hxrest : ∀ e ∈ rest, _normalizeJid e.1 ≠ x ∧ e.1 ≠ x :=
      fun e he => hx e (List.mem_cons_of_mem _ he)
    by_cases ho : isObjLike v0 = true
    · rw [loadProfilesGo_cons_obj _ _ _ _ _ _ ho, ih _ _ _ hxrest, mget_refs2_cases]
      rw [if_neg ?hcond]
      case hcond =>
        rintro (h | h)
        · exact hxk.2 h.symm
        · exact hxk.1 h.symm
    · rw [loadProfilesGo_cons_nonobj _ _ _ _ _ _ ho]
      exact ih _ _ _ hxrest

theorem loadProfilesGo_heap_extend :
    ∀ (entries : List (String × Json)) (refs : List (String × Nat)) (heap : List Json)
      (cnt : Nat),
      ∃ ext, (loadProfilesGo entries refs heap cnt).2.1 = heap ++ ext := by
  intro entries
  induction entries with
  | nil => intro refs heap cnt; exact ⟨[], (List.append_nil heap).symm⟩
  | cons e rest ih =>
    intro refs heap cnt
    obtain ⟨k0, v0⟩ := e
    by_cases ho : isObjLike v0 = true
    · rw [loadProfilesGo_cons_obj _ _ _ _ _ _ ho]
      rcases ih _ (heap ++ [v0]) (cnt + 1) with ⟨ext, hext⟩
      refine ⟨[v0] ++ ext, ?_⟩
      rw [hext, List.append_assoc]
    · rw [loadProfilesGo_cons_nonobj _ _ _ _ _ _ ho]
      exact ih refs heap cnt

theorem loadProfilesGo_count :
    ∀ (entries : List (String × Json)) (refs : List (String × Nat)) (heap : List Json)
      (cnt : Nat),
      (loadProfilesGo entries refs heap cnt).2.2
        = cnt + (entries.filter (fun e => isObjLike e.2)).length := by
  intro entries
  induction entries with
  | nil => intro refs heap cnt; simp [loadProfilesGo]
  | cons e rest ih =>
    intro refs heap cnt
    obtain ⟨k0, v0⟩ := e
    by_cases ho : isObjLike v0 = true
    · rw [loadProfilesGo_cons_obj _ _ _ _ _ _ ho, ih]
      rw [List.filter_cons_of_pos (by simpa using ho), List.length_cons]
      omega
    · rw [loadProfilesGo_cons_nonobj _ _ _ _ _ _ ho, ih]
      rw [List.filter_cons_of_neg (by simpa using ho)]

theorem loadProfilesGo_binds_both :
    ∀ (entries : List (String × Json)) (refs : List (String × Nat)) (heap : List Json)
      (cnt : Nat),
      (entries.map (fun e => _normalizeJid e.1)).Nodup →
      ∀ (k : String) (v : Json), (k, v) ∈ entries → isObjLike v = true →
      ∃ r, mget (loadProfilesGo entries refs heap cnt).1 k = some r
        ∧ mget (loadProfilesGo entries refs heap cnt).1 (_normalizeJid k) = some r
        ∧ (loadProfilesGo entries refs heap cnt).2.1[r]? = some v := by
  intro entries
  induction entries with
  | nil =>
    intro refs heap cnt _ k v hmem
    simp at hmem
  | cons e rest ih =>
    intro refs heap cnt hnn k v hmem hov
    obtain ⟨k0, v0⟩ := e
    rw [List.map_cons, List.nodup_cons] at hnn
    rcases List.mem_cons.mp hmem with heq | hmem2
    · rw [Prod.mk.injEq] at heq
      obtain ⟨hk, hv⟩ := heq
      subst hk
      subst hv
      have hne : ∀ e ∈ rest, _normalizeJid e.1 ≠ _normalizeJid k := by
        intro e he hcon
        exact hnn.1 (List.mem_map.mpr ⟨e, he, hcon⟩)
      have hstab : ∀ e ∈ rest, _normalizeJid e.1 ≠ k ∧ e.1 ≠ k := by
        intro e he
        refine ⟨fun hcon => hne e he ?_, fun hcon => hne e he ?_⟩
        · have h2 : _normalizeJid (_normalizeJid e.1) = _normalizeJid k := by rw [hcon]
          rwa [normalizeJid_idem] at h2
        · rw [hcon]
      have hstab2 : ∀ e ∈ rest, _normalizeJid e.1 ≠ _normalizeJid k ∧ e.1 ≠ _normalizeJid k := by
        intro e he
        refine ⟨hne e he, fun hcon => hne e he ?_⟩
        have h2 : _normalizeJid e.1 = _normalizeJid (_normalizeJid k) := by rw [hcon]
        rwa [normalizeJid_idem] at h2
      rw [loadProfilesGo_cons_obj _ _ _ _ _ _ hov]
      refine ⟨heap.length, ?_, ?_, ?_⟩
      · rw [loadProfilesGo_stable k rest _ _ _ hstab, mget_refs2_cases]
        rw [if_pos (Or.inl rfl)]
      · rw [loadProfilesGo_stable (_normalizeJid k) rest _ _ _ hstab2, mget_refs2_cases]
        rw [if_pos (Or.inr rfl)]
      · rcases loadProfilesGo_heap_extend rest _ (heap ++ [v]) (cnt + 1) with ⟨ext, hext⟩
        rw [hext]
        have hlt : heap.length < (heap ++ [v]).length := by
          rw [List.length_append]
          simp
        rw [List.getElem?_append_left hlt]
        exact List.getElem?_concat_length heap v
    · by_cases ho : isObjLike v0 = true
      · rw [loadProfilesGo_cons_obj _ _ _ _ _ _ ho]
        exact ih _ _ _ hnn.2 k v hmem2 hov
      · rw [loadProfilesGo_cons_nonobj _ _ _ _ _ _ ho]
        exact ih refs heap cnt hnn.2 k v hmem2 hov

theorem loadProfilesGo_lookup :
    ∀ (entries : List (String × Json)) (k : String) (v : Json)
      (refs : List (String × Nat)) (heap : List Json) (cnt : Nat),
      (∀ k2 v2, (k2, v2) ∈ entries → isObjLike v2 = true →
        (k2 = k ∨ _normalizeJid k2 = k) → v2 = v) →
      (∀ r, mget refs k = some r → r < heap.length ∧ heap[r]? = some v) →
      (((k, v) ∈ entries ∧ isObjLike v = true) ∨ (mget refs k).isSome = true) →
      ∃ r, mget (loadProfilesGo entries refs heap cnt).1 k = some r
        ∧ (loadProfilesGo entries refs heap cnt).2.1[r]? = some v := by
  intro entries
  induction entries with
  | nil =>
    intro k v refs heap cnt _ H2 H3
    rcases H3 with ⟨hmem, _⟩ | hsome
    · simp at hmem
    · rcases Option.isSome_iff_exists.mp hsome with ⟨r, hr⟩
      exact ⟨r, hr, (H2 r hr).2⟩
  | cons e rest ih =>
    intro k v refs heap cnt H1 H2 H3
    obtain ⟨k0, v0⟩ := e
    by_cases ho : isObjLike v0 = true
    · rw [loadProfilesGo_cons_obj _ _ _ _ _ _ ho]
      apply ih k v _ _ (cnt + 1)
      · intro k2 v2 h2 hov2 hk2
        exact H1 k2 v2 (List.mem_cons_of_mem _ h2) hov2 hk2
      · intro r hr
        rw [mget_refs2_cases] at hr
        by_cases hhit : k = k0 ∨ k = _normalizeJid k0
        · rw [if_pos hhit] at hr
          have hv0 : v0 = v := by
            apply H1 k0 v0 (List.mem_cons_self _ _) ho
            rcases hhit with h | h
            · exact Or.inl h.symm
            · exact Or.inr h.symm
          have hr2 : r = heap.length := by
            have := Option.some.inj hr
            omega
          subst hr2
          subst hv0
          constructor
          · rw [List.length_append]
            simp
          · exact List.getElem?_concat_length heap v0
        · rw [if_neg hhit] at hr
          rcases H2 r hr with ⟨hlt, hget⟩
          constructor
          · rw [List.length_append]
            omega
          · rw [List.getElem?_append_left hlt]
            exact hget
      · rcases H3 with ⟨hmem, hov⟩ | hsome
        · rcases List.mem_cons.mp hmem with heq | hmem2
          · right
            rw [Prod.mk.injEq] at heq
            obtain ⟨hk, _⟩ := heq
            rw [mget_refs2_cases, if_pos (Or.inl hk)]
            rfl
          · left
            exact ⟨hmem2, hov⟩
        · right
          rw [mget_refs2_cases]
          by_cases hhit : k = k0 ∨ k = _normalizeJid k0
          · rw [if_pos hhit]
            rfl
          · rw [if_neg hhit]
            exact hsome
    · rw [loadProfilesGo_cons_nonobj _ _ _ _ _ _ ho]
      apply ih k v refs heap cnt
      · intro k2 v2 h2 hov2 hk2
        exact H1 k2 v2 (List.mem_cons_of_mem _ h2) hov2 hk2
      · exact H2
      · rcases H3 with ⟨hmem, hov⟩ | hsome
        · rcases List.mem_cons.mp hmem with heq | hmem2
          · exfalso
            rw [Prod.mk.injEq] at heq
            obtain ⟨_, hv⟩ := heq
            rw [hv] at hov
            exact ho hov
          · left
            exact ⟨hmem2, hov⟩
        · right
          exact hsome

theorem keys_filterMap_validate (now : String) (heap : List Json) :
    ∀ (l : List (String × Nat)),
      ((l.filterMap (fun kv =>
          match heap[kv.2]? with
          | some p => if isObjLike p then some (kv.1, validateProfile now p) else none
          | none => none)).map Prod.fst).Sublist (l.map Prod.fst) := by
  intro l
  induction l with
  | nil => simp
  | cons hd t ih =>
    cases hp : heap[hd.2]? with
    | none =>
      simp only [List.filterMap_cons, hp, List.map_cons]
      exact ih.cons _
    | some p =>
      by_cases ho : isObjLike p = true
      · simp only [List.filterMap_cons, hp, if_pos ho, List.map_cons]
        exact ih.cons₂ _
      · simp only [List.filterMap_cons, hp, if_neg ho, List.map_cons]
        exact ih.cons _

theorem validateProfiles_keys_nodup (now : String) (s : Store)
    (hnd : (s.profileRefs.map Prod.fst).Nodup) :
    ((validateProfiles now s).map Prod.fst).Nodup :=
  List.Nodup.sublist (keys_filterMap_validate now s.heap s.profileRefs) hnd

theorem mem_validateProfiles (now : String) (s : Store) (e : String × Json) :
    e ∈ validateProfiles now s
      ↔ ∃ r p, (e.1, r) ∈ s.profileRefs ∧ s.heap[r]? = some p ∧ isObjLike p = true
          ∧ e.2 = validateProfile now p := by
  unfold validateProfiles
  rw [List.mem_filterMap]
  constructor
  · rintro ⟨kv, hmem, hf⟩
    split at hf
    · rename_i p hp
      by_cases ho : isObjLike p = true
      · rw [if_pos ho] at hf
        have he := Option.some.inj hf
        refine ⟨kv.2, p, ?_, hp, ho, ?_⟩
        · rw [← he]
          simpa using hmem
        · rw [← he]
      · rw [if_neg ho] at hf
        cases hf
    · cases hf
  · rintro ⟨r, p, hmem, hp, ho, hq⟩
    refine ⟨(e.1, r), hmem, ?_⟩
    simp only [hp, if_pos ho]
    rw [← hq]

theorem validateProfiles_filter_obj (now : String) (s : Store) :
    (validateProfiles now s).filter (fun e => isObjLike e.2) = validateProfiles now s := by
  rw [List.filter_eq_self]
  intro e he
  rcases (mem_validateProfiles now s e).mp he with ⟨r, p, _, _, _, hq⟩
  rw [hq]
  rfl

theorem jsGet_userDataJson_profiles (now : String) (s : Store) :
    jsGet (userDataJson now s) "profiles" = some (.obj (validateProfiles now s)) := rfl

theorem fieldEntries_userDataJson (now : String) (s : Store) :
    fieldEntries (userDataJson now s) "profiles" = validateProfiles now s := rfl

theorem mget_frename_dst (fs : List (String × FileData)) (src dst : String) (c : FileData)
    (hsrc : mget fs src = some c) : mget (frename fs src dst) dst = some c := by
  unfold frename
  rw [hsrc]
  exact mget_mset_self _ _ _

theorem saveAll_happy (now : String) (nowMs : Nat) (s : Store)
    (fs : List (String × FileData)) (filename : String) :
    (saveAllUserData ⟨true, true, true, true, true, true⟩ now nowMs s fs filename).1.success
      = true
    ∧ mget (saveAllUserData ⟨true, true, true, true, true, true⟩ now nowMs s fs filename).2
        ("data/" ++ filename) = some (.text (userDataJson now s)) := by
  constructor
  · rfl
  · show mget (frename (mset (copyBakStep true fs ("data/" ++ filename)
        (("data/" ++ filename) ++ ".bak"))
        (("data/" ++ filename) ++ ".temp." ++ toString nowMs)
        (.text (userDataJson now s)))
        (("data/" ++ filename) ++ ".temp." ++ toString nowMs) ("data/" ++ filename))
      ("data/" ++ filename) = some (.text (userDataJson now s))
    exact mget_frename_dst _ _ _ _ (mget_mset_self _ _ _)

theorem loadAll_happy (nowMs : Nat) (s2 : Store) (fs : List (String × FileData))
    (filename : String) (ud : Json)
    (hfile : mget fs ("data/" ++ filename) = some (.text ud))
    (hobj : isObjLike ud = true) :
    (loadAllUserData ⟨true, false⟩ nowMs s2 fs filename).1.success = true
    ∧ (loadAllUserData ⟨true, false⟩ nowMs s2 fs filename).1.count
        = some (repopulate s2.heap ud).2
    ∧ (loadAllUserData ⟨true, false⟩ nowMs s2 fs filename).2.1 = (repopulate s2.heap ud).1 := by
  refine ⟨?_, ?_, ?_⟩ <;> simp [loadAllUserData, hfile, hobj]

/-- C10 (amended): whenever a profile is STORED under an identifier whose
normalized form differs from the identifier itself — via
`initializeUserProfile`'s creation path, via the fallback paths of
`getUserProfile`, or via the repopulation of `loadAllUserData` when no
two loaded profile entries collide under normalization — the store maps
both the original key and the normalized key to the same record object
(the same heap reference), so an update applied to that record through
either key is observable through the other.  (The corrections to the
claim as stated: `initializeUserProfile`'s found-an-existing-profile
path does NOT backfill the missing key, and colliding entries in a
loaded file can leave the two keys bound to different records — see the
counterexample.) -/
theorem c10_alias_same_record (now : String) (s : Store) (userId : String) :
    (∀ (initialData : List (String × Json)), userId ≠ "" →
      mget s.profileRefs userId = none →
      mget s.profileRefs (_normalizeJid userId) = none →
      _normalizeJid userId ≠ userId →
      ∃ r, (initializeUserProfile now s userId initialData).1 = some r
        ∧ mget (initializeUserProfile now s userId initialData).2.profileRefs userId = some r
        ∧ mget (initializeUserProfile now s userId initialData).2.profileRefs
            (_normalizeJid userId) = some r
        ∧ (∀ v2 : Json,
            resolveProfile
              { (initializeUserProfile now s userId initialData).2 with
                heap := (initializeUserProfile now s userId initialData).2.heap.set r v2 }
              userId = some v2
            ∧ resolveProfile
                { (initializeUserProfile now s userId initialData).2 with
                  heap := (initializeUserProfile now s userId initialData).2.heap.set r v2 }
                (_normalizeJid userId) = some v2))
    ∧ (∀ r : Nat, mget s.profileRefs userId = none → (getUserProfile s userId).1 = some r →
        mget (getUserProfile s userId).2.profileRefs userId = some r
        ∧ mget (getUserProfile s userId).2.profileRefs (_normalizeJid userId) = some r)
    ∧ (∀ (j : Json) (heap0 : List Json) (k : String) (v : Json),
        ((fieldEntries j "profiles").map (fun e => _normalizeJid e.1)).Nodup →
        (k, v) ∈ fieldEntries j "profiles" → isObjLike v = true →
        ∃ r, mget (repopulate heap0 j).1.profileRefs k = some r
          ∧ mget (repopulate heap0 j).1.profileRefs (_normalizeJid k) = some r
          ∧ (repopulate heap0 j).1.heap[r]? = some v) := by
  refine ⟨?_, ?_, ?_⟩
  · intro initialData hne h1 h2 hdiff
    have hinit : initializeUserProfile now s userId initialData
        = (some s.heap.length,
           { s with
             profileRefs := mset (mset s.profileRefs (_normalizeJid userId) s.heap.length)
               userId s.heap.length,
             heap := s.heap
               ++ [Json.obj (spreadFields (defaultProfileFields now initialData) initialData)] }) := by
      simp [initializeUserProfile, hne, h1, h2, if_pos hdiff]
    rw [hinit]
    refine ⟨s.heap.length, rfl, mget_mset_self _ _ _, ?_, ?_⟩
    · rw [mget_mset_ne _ _ _ _ hdiff]
      exact mget_mset_self _ _ _
    · intro v2
      have hlt : s.heap.length
          < (s.heap
             ++ [Json.obj (spreadFields (defaultProfileFields now initialData) initialData)]).length := by
        rw [List.length_append]
        simp
      constructor
      · unfold resolveProfile
        rw [show mget (mset (mset s.profileRefs (_normalizeJid userId) s.heap.length)
              userId s.heap.length) userId = some s.heap.length from mget_mset_self _ _ _]
        exact List.getElem?_set_self hlt
      · unfold resolveProfile
        rw [show mget (mset (mset s.profileRefs (_normalizeJid userId) s.heap.length)
              userId s.heap.length) (_normalizeJid userId) = some s.heap.length from by
            rw [mget_mset_ne _ _ _ _ hdiff]
            exact mget_mset_self _ _ _]
        exact List.getElem?_set_self hlt
  · intro r h1 hret
    by_cases he : userId = ""
    · exfalso
      have hz : (getUserProfile s userId).1 = none := by simp [getUserProfile, he]
      rw [hz] at hret
      cases hret
    · cases hn : mget s.profileRefs (_normalizeJid userId) with
      | some r0 =>
        have hgp : getUserProfile s userId
            = (some r0, { s with profileRefs := mset s.profileRefs userId r0 }) := by
          simp [getUserProfile, he, h1, hn]
        rw [hgp] at hret
        have hr : r0 = r := Option.some.inj hret
        subst hr
        rw [hgp]
        constructor
        · exact mget_mset_self _ _ _
        · have hnu : _normalizeJid userId ≠ userId := by
            intro hcon
            rw [hcon, h1] at hn
            cases hn
          rw [mget_mset_ne _ _ _ _ hnu]
          exact hn
      | none =>
        cases hf : s.profileRefs.find?
            (fun kv => _normalizeJid kv.1 == _normalizeJid userId) with
        | none =>
          exfalso
          have hz : (getUserProfile s userId).1 = none := by
            simp [getUserProfile, he, h1, hn, hf]
          rw [hz] at hret
          cases hret
        | some kv =>
          have hgp : getUserProfile s userId = (some kv.2,
              { s with
                profileRefs :=
                  mset (mset s.profileRefs userId kv.2) (_normalizeJid userId) kv.2 }) := by
            simp [getUserProfile, he, h1, hn, hf]
          rw [hgp] at hret
          have hr : kv.2 = r := Option.some.inj hret
          rw [hgp]
          constructor
          · by_cases hnu : _normalizeJid userId = userId
            · rw [hnu, ← hr]
              exact mget_mset_self _ _ _
            · rw [mget_mset_ne _ _ _ _ (Ne.symm hnu), ← hr]
              exact mget_mset_self _ _ _
          · rw [← hr]
            exact mget_mset_self _ _ _
  · intro j heap0 k v hnn hmem hov
    exact loadProfilesGo_binds_both (fieldEntries j "profiles") [] heap0 0 hnn k v hmem hov

/-- Counterexample to C10 as stated: the store already holds a profile
under the normalized key `123@s.whatsapp.net` only.
`initializeUserProfile "123"` FINDS that profile via the normalized key
and returns it, but leaves the store without any binding for the
original key `123` — the store does not map both keys to the record. -/
theorem c10_counterexample :
    _normalizeJid "123" ≠ "123"
    ∧ (initializeUserProfile "T"
        { profileRefs := [("123@s.whatsapp.net", 0)], heap := [.obj [("name", .str "A")]],
          userGames := [], marriageData := [], bankAccounts := [], userJobs := [],
          petData := [], userAfk := [], streakData := [], checkinData := [],
          lotteryParticipants := [] }
        "123" []).1 = some 0
    ∧ mget (initializeUserProfile "T"
        { profileRefs := [("123@s.whatsapp.net", 0)], heap := [.obj [("name", .str "A")]],
          userGames := [], marriageData := [], bankAccounts := [], userJobs := [],
          petData := [], userAfk := [], streakData := [], checkinData := [],
          lotteryParticipants := [] }
        "123" []).2.profileRefs "123" = none :=
  ⟨by decide, rfl, rfl⟩

/-- Witness for C10 (amended): creating a profile for `123` in an empty
store binds both `123` and `123@s.whatsapp.net` to the same record. -/
theorem c10_witness :
    (initializeUserProfile "T" emptyStore "123" []).1 = some 0
    ∧ mget (initializeUserProfile "T" emptyStore "123" []).2.profileRefs "123" = some 0
    ∧ mget (initializeUserProfile "T" emptyStore "123" []).2.profileRefs
        "123@s.whatsapp.net" = some 0 := by
  obtain ⟨r, hr1, hr2, hr3, _⟩ :=
    (c10_alias_same_record "T" emptyStore "123").1 [] (by decide) rfl rfl (by decide)
  have h0 : (initializeUserProfile "T" emptyStore "123" []).1 = some 0 := rfl
  rw [h0] at hr1
  have hr : r = 0 := (Option.some.inj hr1).symm
  subst hr
  exact ⟨h0, hr2, hr3⟩

/-- C4: for every valid store state — profile keys unique, and
normalization-consistent in the sense of the store's own aliasing
invariant (two keys with the same canonical form denote the same
record) — running `saveAllUserData` and then `loadAllUserData` on the
file it produced succeeds; every object-shaped profile saved is loaded
back with exactly the field values that type-safe default substitution
produced at save time; and the load result's `count` equals the number
of valid profile entries saved. -/
theorem c4_save_load_roundtrip (now : String) (nowMs nowMs2 : Nat) (s s2 : Store)
    (fs : List (String × FileData)) (filename : String)
    (hnd : (s.profileRefs.map Prod.fst).Nodup)
    (hcons : ∀ k1 r1 p1 k2 r2 p2, mget s.profileRefs k1 = some r1 → s.heap[r1]? = some p1 →
      isObjLike p1 = true → mget s.profileRefs k2 = some r2 → s.heap[r2]? = some p2 →
      isObjLike p2 = true → _normalizeJid k1 = _normalizeJid k2 → p1 = p2) :
    (saveAllUserData ⟨true, true, true, true, true, true⟩ now nowMs s fs filename).1.success
      = true
    ∧ (loadAllUserData ⟨true, false⟩ nowMs2 s2
        (saveAllUserData ⟨true, true, true, true, true, true⟩ now nowMs s fs filename).2
        filename).1.success = true
    ∧ (loadAllUserData ⟨true, false⟩ nowMs2 s2
        (saveAllUserData ⟨true, true, true, true, true, true⟩ now nowMs s fs filename).2
        filename).1.count = some (validateProfiles now s).length
    ∧ (∀ (k : String) (r : Nat) (p : Json),
        mget s.profileRefs k = some r → s.heap[r]? = some p → isObjLike p = true →
        ∃ r2, mget (loadAllUserData ⟨true, false⟩ nowMs2 s2
              (saveAllUserData ⟨true, true, true, true, true, true⟩ now nowMs s fs
                filename).2 filename).2.1.profileRefs k = some r2
          ∧ (loadAllUserData ⟨true, false⟩ nowMs2 s2
              (saveAllUserData ⟨true, true, true, true, true, true⟩ now nowMs s fs
                filename).2 filename).2.1.heap[r2]? = some (validateProfile now p)) := by
  obtain ⟨hs1, hs2⟩ := saveAll_happy now nowMs s fs filename
  obtain ⟨hl1, hl2, hl3⟩ := loadAll_happy nowMs2 s2
    (saveAllUserData ⟨true, true, true, true, true, true⟩ now nowMs s fs filename).2
    filename (userDataJson now s) hs2 rfl
  refine ⟨hs1, hl1, ?_, ?_⟩
  · rw [hl2]
    have hcnt : (repopulate s2.heap (userDataJson now s)).2
        = (validateProfiles now s).length := by
      show (loadProfilesGo (fieldEntries (userDataJson now s) "profiles") [] s2.heap 0).2.2
        = (validateProfiles now s).length
      rw [loadProfilesGo_count, fieldEntries_userDataJson, validateProfiles_filter_obj]
      simp
    rw [hcnt]
  · intro k r p hk hp hop
    have H1 : ∀ (k2 : String) (v2 : Json), (k2, v2) ∈ validateProfiles now s →
        isObjLike v2 = true → (k2 = k ∨ _normalizeJid k2 = k) →
        v2 = validateProfile now p := by
      intro k2 v2 hmem2 _ hror
      rcases (mem_validateProfiles now s (k2, v2)).mp hmem2 with ⟨r2, p2, hmem2k, hp2, hop2, hq2⟩
      have hk2get : mget s.profileRefs k2 = some r2 :=
        mget_eq_some_of_mem_nodup _ _ _ hnd hmem2k
      have hpeq : p2 = p := by
        rcases hror with he | he
        · subst he
          have hrr : r2 = r := Option.some.inj (hk2get.symm.trans hk)
          subst hrr
          exact Option.some.inj (hp2.symm.trans hp)
        · have hnn : _normalizeJid k2 = _normalizeJid k := by
            have h2 : _normalizeJid (_normalizeJid k2) = _normalizeJid k := by rw [he]
            rwa [normalizeJid_idem] at h2
          exact hcons k2 r2 p2 k r p hk2get hp2 hop2 hk hp hop hnn
      rw [show v2 = (k2, v2).2 from rfl, hq2, hpeq]
    have H3mem : (k, validateProfile now p) ∈ validateProfiles now s :=
      (mem_validateProfiles now s (k, validateProfile now p)).mpr
        ⟨r, p, mem_of_mget_eq_some _ _ _ hk, hp, hop, rfl⟩
    have hL := loadProfilesGo_lookup (validateProfiles now s) k (validateProfile now p)
      [] s2.heap 0 H1 (by intro r0 hr0; simp [mget] at hr0) (Or.inl ⟨H3mem, rfl⟩)
    rcases hL with ⟨r2, ha, hb⟩
    rw [hl3]
    refine ⟨r2, ?_, ?_⟩
    · show mget (loadProfilesGo (fieldEntries (userDataJson now s) "profiles") [] s2.heap 0).1 k
        = some r2
      rw [fieldEntries_userDataJson]
      exact ha
    · show (loadProfilesGo (fieldEntries (userDataJson now s) "profiles")
          [] s2.heap 0).2.1[r2]? = some (validateProfile now p)
      rw [fieldEntries_userDataJson]
      exact hb

/-- Witness for C4 on a one-profile store: save then load succeeds and
reports exactly one loaded profile. -/
theorem c4_witness :
    (saveAllUserData ⟨true, true, true, true, true, true⟩ "T" 1
        { profileRefs := [("5@s.whatsapp.net", 0)],
          heap := [.obj [("name", .str "N"), ("age", .num 3)]],
          userGames := [], marriageData := [], bankAccounts := [], userJobs := [],
          petData := [], userAfk := [], streakData := [], checkinData := [],
          lotteryParticipants := [] } [] "user_data.json").1.success = true
    ∧ (loadAllUserData ⟨true, false⟩ 2 emptyStore
        (saveAllUserData ⟨true, true, true, true, true, true⟩ "T" 1
          { profileRefs := [("5@s.whatsapp.net", 0)],
            heap := [.obj [("name", .str "N"), ("age", .num 3)]],
            userGames := [], marriageData := [], bankAccounts := [], userJobs := [],
            petData := [], userAfk := [], streakData := [], checkinData := [],
            lotteryParticipants := [] } [] "user_data.json").2
        "user_data.json").1.success = true
    ∧ (loadAllUserData ⟨true, false⟩ 2 emptyStore
        (saveAllUserData ⟨true, true, true, true, true, true⟩ "T" 1
          { profileRefs := [("5@s.whatsapp.net", 0)],
            heap := [.obj [("name", .str "N"), ("age", .num 3)]],
            userGames := [], marriageData := [], bankAccounts := [], userJobs := [],
            petData := [], userAfk := [], streakData := [], checkinData := [],
            lotteryParticipants := [] } [] "user_data.json").2
        "user_data.json").1.count
      = some (validateProfiles "T"
          { profileRefs := [("5@s.whatsapp.net", 0)],
            heap := [.obj [("name", .str "N"), ("age", .num 3)]],
            userGames := [], marriageData := [], bankAccounts := [], userJobs := [],
            petData := [], userAfk := [], streakData := [], checkinData := [],
            lotteryParticipants := [] }).length := by
  have h := c4_save_load_roundtrip "T" 1 2
    { profileRefs := [("5@s.whatsapp.net", 0)],
      heap := [.obj [("name", .str "N"), ("age", .num 3)]],
      userGames := [], marriageData := [], bankAccounts := [], userJobs := [],
      petData := [], userAfk := [], streakData := [], checkinData := [],
      lotteryParticipants := [] }
    emptyStore [] "user_data.json" (by decide)
    (by
      intro k1 r1 p1 k2 r2 p2 h1 h2 _ h4 h5 _ _
      have hk1 : "5@s.whatsapp.net" = k1 ∧ r1 = 0 := by
        by_cases hc : ("5@s.whatsapp.net" : String) = k1
        · refine ⟨hc, ?_⟩
          simp only [mget, if_pos hc] at h1
          exact (Option.some.inj h1).symm
        · simp only [mget, if_neg hc] at h1
          cases h1
      have hk2 : "5@s.whatsapp.net" = k2 ∧ r2 = 0 := by
        by_cases hc : ("5@s.whatsapp.net" : String) = k2
        · refine ⟨hc, ?_⟩
          simp only [mget, if_pos hc] at h4
          exact (Option.some.inj h4).symm
        · simp only [mget, if_neg hc] at h4
          cases h4
      obtain ⟨_, hr1⟩ := hk1
      obtain ⟨_, hr2⟩ := hk2
      subst hr1
      subst hr2
      have hp1 : p1 = .obj [("name", .str "N"), ("age", .num 3)] := by
        simpa using h2.symm
      have hp2 : p2 = .obj [("name", .str "N"), ("age", .num 3)] := by
        simpa using h5.symm
      rw [hp1, hp2])
  exact ⟨h.1, h.2.1, h.2.2.1⟩
